import Mathlib

/-!
# 3d-playground: a verification development for `src/main.js`

The program is a browser viewer: it builds a renderer, a camera and an orbit
controller, loads a model, and animates the camera towards named viewpoints.

## Numbers

A JavaScript Number is an IEEE 754 binary64 value and every arithmetic
operator rounds its exact result to the nearest such value, ties to even
(ECMA-262, 6.1.6.1).  A finite Number is modelled by the rational it denotes;
`toDouble` is the rounding, and `fadd`, `fsub`, `fmul`, `fdiv` are the
operators `+`, `-`, `*`, `/`.  Infinities and NaN are not values of the model:
`toDouble` has an unbounded exponent above, so it agrees with the language as
long as the exact result is below `2 ^ 1024` in magnitude, which `isFinite`
records.
-/

namespace Playground

/-! ## Number arithmetic -/

/-- Nearest integer to a rational, a tie going to the even neighbour. -/
def roundHalfEven (x : ℚ) : ℤ :=
  let f := ⌊x⌋
  let r := x - f
  if r < 1 / 2 then f
  else if 1 / 2 < r then f + 1
  else if f % 2 = 0 then f else f + 1

/-- Exponent of the unit in the last place of the binary64 numbers around `q`:
53 significant bits in the normal range, `2 ^ (-1074)` in the subnormal range. -/
def ulpExp (q : ℚ) : ℤ :=
  max (Int.log 2 |q| - 52) (-1074)

/-- Rounding of an exact rational to binary64, round to nearest, ties to even. -/
def toDouble (q : ℚ) : ℚ :=
  (roundHalfEven (q / 2 ^ ulpExp q) : ℚ) * 2 ^ ulpExp q

/-- The largest finite binary64 value, `(2 ^ 53 - 1) * 2 ^ 971`. -/
def maxDouble : ℚ := (2 ^ 53 - 1) * 2 ^ 971

/-- A rational is a finite Number when it is a fixed point of the rounding and
does not exceed the largest finite value in magnitude. -/
def isFinite (q : ℚ) : Prop :=
  toDouble q = q ∧ |q| ≤ maxDouble

/-- JavaScript `a + b`. -/
def fadd (a b : ℚ) : ℚ := toDouble (a + b)

/-- JavaScript `a - b`. -/
def fsub (a b : ℚ) : ℚ := toDouble (a - b)

/-- JavaScript `a * b`. -/
def fmul (a b : ℚ) : ℚ := toDouble (a * b)

/-- JavaScript `a / b` for a non-zero divisor. -/
def fdiv (a b : ℚ) : ℚ := toDouble (a / b)

/-- A decimal literal of the source denotes the binary64 value nearest to it. -/
def lit (q : ℚ) : ℚ := toDouble q

/-! ## Data model -/

/-- The numeric fields `x`, `y`, `z` of a `THREE.Vector3` or of a point literal. -/
structure Vec3 where
  x : ℚ
  y : ℚ
  z : ℚ

/-- A viewpoint record: a camera position and the point the camera looks at. -/
structure PointData where
  position : Vec3
  lookAt : Vec3

/-- Source: `const satellitePointData`. -/
def satellitePointData : PointData :=
  { position := { x := lit 2.2363356030075563, y := lit 2.820678683267509, z := lit 2.684753953671324 }
    lookAt := { x := lit 0, y := lit 2, z := -lit 0.5 } }

/-- Source: `const machineGunPointData`. -/
def machineGunPointData : PointData :=
  { position := { x := lit 0.5760624910715781, y := lit 3.051817229890369, z := lit 0.4757104852229018 }
    lookAt := { x := -lit 0.3332266219157822, y := lit 2.2358192826928676, z := -lit 0.5257846919885497 } }

/-- Source: `const frontalPointData`. -/
def frontalPointData : PointData :=
  { position := { x := -lit 1.6956829343157755, y := lit 2.911476432638847, z := lit 6.006285240809736 }
    lookAt := { x := -lit 0.12111220935307855, y := lit 1.2546289604273042, z := -lit 0.3443322137823006 } }

/-- Source: `const sidePodPointData`. -/
def sidePodPointData : PointData :=
  { position := { x := -lit 3.842264605996623, y := lit 2.531246896437086, z := lit 3.2344043181914017 }
    lookAt := { x := -lit 1.2075112121972915, y := lit 1.598525061225214, z := -lit 1.0790626359441582 } }

/-- Source: `const airConditioningPointData`. -/
def airConditioningPointData : PointData :=
  { position := { x := -lit 0.5680513933598731, y := lit 3.8647939449647435, z := -lit 2.8722469298357245 }
    lookAt := { x := -lit 0.03259431926139941, y := lit 2.3942898229981293, z := -lit 1.899660839467895 } }

/-- Source: `const warpDrivePointData`. -/
def warpDrivePointData : PointData :=
  { position := { x := -lit 2.2960948510395087, y := lit 2.3045136500926064, z := -lit 3.7251187837076998 }
    lookAt := { x := -lit 0.22176763221662282, y := lit 1.7171330696876503, z := -lit 1.974151811476235 } }

/-- Source: `const cameraTargetsAndPositions`, an object literal with six own
properties, each rebuilt field by field from the constant of the same name. -/
def cameraTargetsAndPositions : List (String × PointData) :=
  [ ("satellite",
      { position := { x := satellitePointData.position.x, y := satellitePointData.position.y,
                      z := satellitePointData.position.z }
        lookAt := { x := satellitePointData.lookAt.x, y := satellitePointData.lookAt.y,
                    z := satellitePointData.lookAt.z } }),
    ("machineGun",
      { position := { x := machineGunPointData.position.x, y := machineGunPointData.position.y,
                      z := machineGunPointData.position.z }
        lookAt := { x := machineGunPointData.lookAt.x, y := machineGunPointData.lookAt.y,
                    z := machineGunPointData.lookAt.z } }),
    ("frontal",
      { position := { x := frontalPointData.position.x, y := frontalPointData.position.y,
                      z := frontalPointData.position.z }
        lookAt := { x := frontalPointData.lookAt.x, y := frontalPointData.lookAt.y,
                    z := frontalPointData.lookAt.z } }),
    ("sidePod",
      { position := { x := sidePodPointData.position.x, y := sidePodPointData.position.y,
                      z := sidePodPointData.position.z }
        lookAt := { x := sidePodPointData.lookAt.x, y := sidePodPointData.lookAt.y,
                    z := sidePodPointData.lookAt.z } }),
    ("airConditioning",
      { position := { x := airConditioningPointData.position.x,
                      y := airConditioningPointData.position.y,
                      z := airConditioningPointData.position.z }
        lookAt := { x := airConditioningPointData.lookAt.x, y := airConditioningPointData.lookAt.y,
                    z := airConditioningPointData.lookAt.z } }),
    ("warpDrive",
      { position := { x := warpDrivePointData.position.x, y := warpDrivePointData.position.y,
                      z := warpDrivePointData.position.z }
        lookAt := { x := warpDrivePointData.lookAt.x, y := warpDrivePointData.lookAt.y,
                    z := warpDrivePointData.lookAt.z } }) ]

/-- The six viewpoint identifiers, in the order of the object literal. -/
def viewpointKeys : List String :=
  ["satellite", "machineGun", "frontal", "sidePod", "airConditioning", "warpDrive"]

/-- Names every ordinary object inherits from `Object.prototype`; a property
read with one of them finds the inherited member, not `undefined`. -/
def objectPrototypeKeys : List String :=
  ["constructor", "hasOwnProperty", "isPrototypeOf", "propertyIsEnumerable", "toLocaleString",
   "toString", "valueOf", "__defineGetter__", "__defineSetter__", "__lookupGetter__",
   "__lookupSetter__", "__proto__"]

/-- What the read `cameraTargetsAndPositions[objectId]` can evaluate to. -/
inductive Value where
  | undefined : Value
  | inherited : String → Value
  | point : PointData → Value

/-- The property key of `getAttribute("id")`: the attribute string, or the
string of `null` when the element has no such attribute. -/
def propertyKey (objectId : Option String) : String :=
  match objectId with
  | some s => s
  | none => "null"

/-- Source: `cameraTargetsAndPositions[objectId]`: an own property, else a
member of `Object.prototype`, else `undefined`. -/
def getProperty (objectId : Option String) : Value :=
  match cameraTargetsAndPositions.lookup (propertyKey objectId) with
  | some p => Value.point p
  | none =>
    if propertyKey objectId ∈ objectPrototypeKeys then Value.inherited (propertyKey objectId)
    else Value.undefined

/-- What the perspective projection matrix was last computed from. -/
structure Projection where
  fov : ℚ
  aspect : ℚ
  near : ℚ
  far : ℚ

/-- The fields of `THREE.PerspectiveCamera` the program reads or writes. -/
structure Camera where
  fov : ℚ
  aspect : ℚ
  near : ℚ
  far : ℚ
  position : Vec3
  projection : Projection

/-- Modelled from the spec: `camera.updateProjectionMatrix()` is a method of the
rendering library, whose code is not part of the repository. The projection is
recomputed from the current `fov`, `aspect`, `near` and `far` ("recompute camera
aspect ratio and the renderer's drawing-surface dimensions to match"). -/
def Camera.updateProjectionMatrix (c : Camera) : Camera :=
  { c with projection := { fov := c.fov, aspect := c.aspect, near := c.near, far := c.far } }

/-- The drawing-surface size held by `THREE.WebGLRenderer`. -/
structure Renderer where
  width : ℚ
  height : ℚ

/-- Modelled from the spec: `renderer.setSize(width, height)` is a method of the
rendering library, whose code is not part of the repository; it "resizes the
drawing surface to (W, H)". -/
def Renderer.setSize (_r : Renderer) (width height : ℚ) : Renderer :=
  { width := width, height := height }

/-- The fields of `OrbitControls` set by `createControls`. -/
structure Controls where
  enableDamping : Bool
  enablePan : Bool
  minDistance : ℚ
  maxDistance : ℚ
  minPolarAngle : ℚ
  maxPolarAngle : ℚ
  autoRotate : Bool
  target : Vec3

/-- The element with id `loading-element`. -/
structure LoadingElement where
  innerHTML : String
  display : String

/-- The object a tween mutates. -/
inductive TweenObject where
  | cameraPosition : TweenObject
  | controlsTarget : TweenObject

/-- A started tween: the start values captured by `start()`, the end values and
duration given to `to`, the start time, and whether its `onUpdate` callback
calls `controls.update()`. -/
structure Tween where
  object : TweenObject
  valuesStart : Vec3
  valuesEnd : Vec3
  duration : ℚ
  startTime : ℚ
  updatesControls : Bool

/-- Observable steps of an animation frame, in the order they happen. -/
inductive Event where
  | positionWritten : Vec3 → Event
  | targetWritten : Vec3 → Event
  | controlsUpdated : Event

/-- The module-level state of `main.js` together with the tween registry:
`tweens` are the started tweens in creation order, `constructed` counts the
`Tween` objects built so far, `updateCalls` counts the calls of
`controls.update()` made so far, `trace` records tween writes and controller
updates. -/
structure World where
  camera : Camera
  controls : Controls
  renderer : Renderer
  loadingElement : LoadingElement
  tweens : List Tween
  constructed : ℕ
  updateCalls : ℕ
  trace : List Event

/-- The orbit controller library, `OrbitControls` of three.js, whose code is not
part of the repository; every operation that calls it takes it as an argument.
`construct` is what `new OrbitControls(camera, domElement)` does to the camera
position: the constructor runs an update of its own with the default settings.
`update` is the library call `controls.update()`: from the number of earlier
calls, the controller settings and the camera position to the new controller
target and the new camera position. The call may write both, and its result
may differ from call to call, the controller keeping a state of its own
(damping, pending pan and zoom from user input) that the program does not
see: the number of the call stands for that state. -/
structure OrbitLibrary where
  construct : Vec3 → Vec3
  update : ℕ → Controls → Vec3 → Vec3 × Vec3

/-! ## Operations -/

/-- Source: `createCamera`. -/
def createCamera (innerWidth innerHeight : ℚ) : Camera :=
  { fov := 75
    aspect := fdiv innerWidth innerHeight
    near := lit 0.01
    far := 2000
    position := { x := 0, y := 12, z := 0 }
    projection := { fov := 75, aspect := fdiv innerWidth innerHeight, near := lit 0.01, far := 2000 } }

/-- Source: the assignments of `createControls`, before its `controls.update()`. -/
def controlsSettings : Controls :=
  { enableDamping := true
    enablePan := true
    minDistance := lit 0.1
    maxDistance := 20
    minPolarAngle := lit 0.5
    maxPolarAngle := lit 1.5
    autoRotate := false
    target := { x := 0, y := 2, z := -lit 0.5 } }

/-- Source: `controls.update()`: the library writes the controller target and
the camera position. -/
def controlsUpdate (lib : OrbitLibrary) (w : World) : World :=
  { w with
    camera :=
      { w.camera with
        position := (lib.update w.updateCalls w.controls w.camera.position).2 }
    controls :=
      { w.controls with
        target := (lib.update w.updateCalls w.controls w.camera.position).1 }
    updateCalls := w.updateCalls + 1
    trace := w.trace ++ [Event.controlsUpdated] }

/-- Source: `createRenderer`, as far as the drawing-surface size goes:
`renderer.setSize(window.innerWidth, window.innerHeight)`. -/
def createRenderer (innerWidth innerHeight : ℚ) : Renderer :=
  { width := innerWidth, height := innerHeight }

/-- Source: `createControls`: the constructor of the controller, which may move
the camera, then the settings of the source, then `controls.update()`. No
tween exists yet. -/
def createControls (lib : OrbitLibrary) (camera : Camera) (renderer : Renderer)
    (loading : LoadingElement) : World :=
  controlsUpdate lib
    { camera := { camera with position := lib.construct camera.position }
      controls := controlsSettings
      renderer := renderer
      loadingElement := loading
      tweens := []
      constructed := 0
      updateCalls := 0
      trace := [] }

/-- Source: `init` up to `createControls`, for a window of the given inner size
and a loading element as found in the page. The later calls of `init` add
lights, register the listeners modelled below, start the load and the frame
loop. -/
def init (lib : OrbitLibrary) (innerWidth innerHeight : ℚ) (loading : LoadingElement) : World :=
  createControls lib (createCamera innerWidth innerHeight)
    (createRenderer innerWidth innerHeight) loading

/-- Source: the `resize` listener of `bindListeners`. -/
def onResize (innerWidth innerHeight : ℚ) (w : World) : World :=
  { w with
    camera := Camera.updateProjectionMatrix { w.camera with aspect := fdiv innerWidth innerHeight }
    renderer := w.renderer.setSize innerWidth innerHeight }

/-- Modelled from the spec: `TWEEN.Easing.Quadratic.Out` belongs to the tweening
library, whose code is not part of the repository. It is the "ease-out-quadratic
curve" `e(k) = k * (2 - k)`, computed on Numbers. -/
def quadraticOut (amount : ℚ) : ℚ :=
  fmul amount (fsub 2 amount)

/-- Modelled from the spec: the progress of a tween of the tweening library at a
clock reading, `k = min(elapsed / duration, 1)` with `elapsed` the time since
the start: `(time - startTime) / duration`, replaced by 1 when the duration is 0
or the quotient exceeds 1. -/
def Tween.elapsed (t : Tween) (time : ℚ) : ℚ :=
  if t.duration = 0 ∨ 1 < fdiv (fsub time t.startTime) t.duration then 1
  else fdiv (fsub time t.startTime) t.duration

/-- Modelled from the spec: the value a tween of the tweening library writes to
one property, `start + (end - start) * e(k)`, computed on Numbers from left to
right. -/
def interpolate (start stop value : ℚ) : ℚ :=
  fadd start (fmul (fsub stop start) value)

/-- Modelled from the spec: the three properties a tween writes at a clock
reading, each interpolated with the eased progress. -/
def Tween.current (t : Tween) (time : ℚ) : Vec3 :=
  { x := interpolate t.valuesStart.x t.valuesEnd.x (quadraticOut (t.elapsed time))
    y := interpolate t.valuesStart.y t.valuesEnd.y (quadraticOut (t.elapsed time))
    z := interpolate t.valuesStart.z t.valuesEnd.z (quadraticOut (t.elapsed time)) }

/-- Modelled from the spec: the property writes of one tween step, to the
camera position or to the controller target ("one drives camera position ...;
the other drives the controller's look-at target"). -/
def Tween.write (t : Tween) (time : ℚ) (w : World) : World :=
  match t.object with
  | TweenObject.cameraPosition =>
    { w with
      camera := { w.camera with position := t.current time }
      trace := w.trace ++ [Event.positionWritten (t.current time)] }
  | TweenObject.controlsTarget =>
    { w with
      controls := { w.controls with target := t.current time }
      trace := w.trace ++ [Event.targetWritten (t.current time)] }

/-- Modelled from the spec: one step of a started tween of the tweening library
at a clock reading: nothing before the start time; otherwise the property
writes, then the `onUpdate` callback, which for the target tween is
`controls.update()` ("per-frame update callback on the look-at interpolation
must re-synchronize the orbit controller"). The flag tells whether the tween
stays registered, which it does until its progress is 1. -/
def Tween.update (lib : OrbitLibrary) (time : ℚ) (w : World) (t : Tween) : World × Bool :=
  if time < t.startTime then (w, true)
  else
    (if t.updatesControls then controlsUpdate lib (t.write time w) else t.write time w,
     decide (t.elapsed time ≠ 1))

/-- Modelled from the spec: `TWEEN.update()` of the tweening library at a clock
reading, which "advances all active interpolation tasks by elapsed time": every
registered tween is stepped in creation order and those that finished are
unregistered. -/
def tweenUpdate (lib : OrbitLibrary) (time : ℚ) (w : World) : World :=
  let r := w.tweens.foldl
    (fun (acc : World × List Tween) (t : Tween) =>
      ((Tween.update lib time acc.1 t).1,
       if (Tween.update lib time acc.1 t).2 then acc.2 ++ [t] else acc.2))
    (w, [])
  { r.1 with tweens := r.2 }

/-- Source: `animate`, one frame at a clock reading.  The draw call
`renderer.render(scene, camera)` changes none of the modelled fields. -/
def animate (lib : OrbitLibrary) (time : ℚ) (w : World) : World :=
  tweenUpdate lib time w

/-- A run of frames at the given clock readings, in order. -/
def frames (lib : OrbitLibrary) (times : List ℚ) (w : World) : World :=
  times.foldl (fun acc time => animate lib time acc) w

/-- Modelled from the spec: `start()` of a tween of the tweening library on the
given object with the given end values and the duration 2000 of the source:
the current values of the object become the start values ("from its current
value"), the clock reading becomes the start time, and the tween is
registered. -/
def startTween (object : TweenObject) (valuesEnd : Vec3) (updatesControls : Bool) (now : ℚ)
    (w : World) : World :=
  { w with
    tweens := w.tweens ++
      [{ object := object
         valuesStart :=
           match object with
           | TweenObject.cameraPosition => w.camera.position
           | TweenObject.controlsTarget => w.controls.target
         valuesEnd := valuesEnd
         duration := 2000
         startTime := now
         updatesControls := updatesControls }] }

/-- The result of running an event handler: the state it leaves and the error
it threw, if any.  A thrown error does not undo earlier effects. -/
structure Outcome where
  world : World
  error : Option String

/-- Source: the `click` listener of `bindListeners`, in evaluation order.  The
expression `new TWEEN.Tween(camera.position)` is the receiver of `.to(...)` and
is evaluated before the argument of `.to`, where `targetPoint.position.x` is
read; that read throws a `TypeError` when `targetPoint` is `undefined` and
also when it is an inherited member, whose `position` is `undefined`.  The two
`start()` calls read the clock separately. -/
def onClick (objectId : Option String) (now₁ now₂ : ℚ) (w : World) : Outcome :=
  match getProperty objectId with
  | Value.point targetPoint =>
    { world :=
        startTween TweenObject.controlsTarget
          { x := targetPoint.lookAt.x, y := targetPoint.lookAt.y, z := targetPoint.lookAt.z }
          true now₂
          (startTween TweenObject.cameraPosition
            { x := targetPoint.position.x, y := targetPoint.position.y,
              z := targetPoint.position.z }
            false now₁
            { w with constructed := w.constructed + 2 })
      error := none }
  | _ =>
    { world := { w with constructed := w.constructed + 1 }
      error := some "TypeError" }

/-- Decimal digits of a natural number below 100, padded to two places. -/
def twoDigits (n : ℕ) : String :=
  if n < 10 then "0" ++ toString n else toString n

/-- The integer `n` of `toFixed(2)`: the one for which `n / 100` is nearest to
the magnitude of `x`, the larger one on a tie. -/
def hundredths (x : ℚ) : ℕ :=
  ⌊|x| * 100 + 1 / 2⌋.toNat

/-- Built-in `Number.prototype.toFixed(2)` on a finite Number below `10 ^ 21`
in magnitude: with `n` the integer nearest to `100 * x`, the larger one on a
tie, the digits of `n` with a point before the last two. -/
def toFixed2 (x : ℚ) : String :=
  (if x < 0 then "-" else "") ++
    toString (hundredths x / 100) ++ "." ++ twoDigits (hundredths x % 100)

/-- Source: the progress callback of `loadObject`. -/
def onProgress (loaded total : ℚ) (w : World) : World :=
  { w with
    loadingElement :=
      { w.loadingElement with
        innerHTML := "Loading: " ++ toFixed2 (fmul (fdiv loaded total) 100) ++ "%" } }

/-! ## Orbit limits -/

/-- Offset of the camera from the point it orbits. -/
def offset (position target : Vec3) : Vec3 :=
  { x := position.x - target.x, y := position.y - target.y, z := position.z - target.z }

/-- Euclidean length of a vector. -/
noncomputable def Vec3.length (d : Vec3) : ℝ :=
  Real.sqrt ((d.x : ℝ) ^ 2 + (d.y : ℝ) ^ 2 + (d.z : ℝ) ^ 2)

/-- Polar angle of a vector from the `+y` axis: `atan2` of the horizontal
length over the height, the argument of `y + i * sqrt (x ^ 2 + z ^ 2)`. -/
noncomputable def Vec3.polarAngle (d : Vec3) : ℝ :=
  Complex.arg ⟨(d.y : ℝ), Real.sqrt ((d.x : ℝ) ^ 2 + (d.z : ℝ) ^ 2)⟩

/-- A camera placement satisfies the limits of the controller when the
distance to the target and the polar angle of the offset are inside them. -/
def withinLimits (c : Controls) (position : Vec3) : Prop :=
  (c.minDistance : ℝ) ≤ (offset position c.target).length ∧
  (offset position c.target).length ≤ (c.maxDistance : ℝ) ∧
  (c.minPolarAngle : ℝ) ≤ (offset position c.target).polarAngle ∧
  (offset position c.target).polarAngle ≤ (c.maxPolarAngle : ℝ)


/-- A rational is representable when it is an integer of fewer than 54 bits
times a power of two not below the smallest subnormal. -/
def Representable (r : ℚ) : Prop :=
  ∃ m k : ℤ, |m| < 2 ^ 53 ∧ -1074 ≤ k ∧ r = m * 2 ^ k

/-- All three coordinates of a vector are finite Numbers. -/
def Vec3.isFinite (v : Vec3) : Prop :=
  Playground.isFinite v.x ∧ Playground.isFinite v.y ∧ Playground.isFinite v.z

/-- The clamping of `OrbitControls`: `Math.max(min, Math.min(max, value))`. -/
noncomputable def clamp (lo hi value : ℝ) : ℝ :=
  max lo (min hi value)

/-! ## Quantities used to state the behaviour of a tween -/

/-- What a tween leaves in a property at full progress: the double-precision
value of `start + (stop - start) * 1`. -/
def settle (start stop : ℚ) : ℚ :=
  fadd start (fsub stop start)

/-- The three properties a tween leaves at full progress. -/
def Vec3.settle (start stop : Vec3) : Vec3 :=
  { x := Playground.settle start.x stop.x
    y := Playground.settle start.y stop.y
    z := Playground.settle start.z stop.z }

/-- A tween of duration 2000 started at `start` has progress below 1 at `time`. -/
def unfinished (start time : ℚ) : Prop :=
  fdiv (fsub time start) 2000 < 1

/-- The easing curve `k * (2 - k)` in exact arithmetic. -/
def easeExact (k : ℚ) : ℚ :=
  k * (2 - k)

/-- The interpolant `start + (stop - start) * e(k)` in exact arithmetic. -/
def interpolateExact (start stop k : ℚ) : ℚ :=
  start + (stop - start) * easeExact k

/-- The position tween registered by a click on the entry of viewpoint `p` when
the camera is at `start` and the clock reads `now`. -/
def positionTween (start : Vec3) (p : PointData) (now : ℚ) : Tween :=
  { object := TweenObject.cameraPosition, valuesStart := start, valuesEnd := p.position,
    duration := 2000, startTime := now, updatesControls := false }

/-- The target tween registered by a click on the entry of viewpoint `p` when
the controller target is at `start` and the clock reads `now`. -/
def targetTween (start : Vec3) (p : PointData) (now : ℚ) : Tween :=
  { object := TweenObject.controlsTarget, valuesStart := start, valuesEnd := p.lookAt,
    duration := 2000, startTime := now, updatesControls := true }

/-- The tweens of one click are registered: both, or the target tween alone
once the position tween has finished. -/
def Registered (posTween tgtTween : Tween) (w : World) : Prop :=
  w.tweens = [posTween, tgtTween] ∨ w.tweens = [tgtTween]

/-- An instance of the controller library that leaves the camera and the
controller target where they are. -/
def stillOrbit : OrbitLibrary :=
  { construct := fun position => position
    update := fun _ c position => (c.target, position) }

/-- All three coordinates of a vector are representable. -/
def Vec3.Representable (v : Vec3) : Prop :=
  Playground.Representable v.x ∧ Playground.Representable v.y ∧ Playground.Representable v.z

/-- The state after `init` in a window of 1024 by 768, with the library instance
`stillOrbit`, once the camera has been brought to `position` and the controller
target to `target`, no animation in flight. -/
def worldAt (position target : Vec3) : World :=
  { init stillOrbit 1024 768 { innerHTML := "", display := "block" } with
    camera := { createCamera 1024 768 with position := position }
    controls := { controlsSettings with target := target } }

/-- One of the three coordinates of a vector. -/
inductive Axis where
  | x : Axis
  | y : Axis
  | z : Axis

/-- The coordinate of a vector on an axis. -/
def Vec3.get (v : Vec3) (axis : Axis) : ℚ :=
  match axis with
  | Axis.x => v.x
  | Axis.y => v.y
  | Axis.z => v.z

/-! ## Rounding: basic facts -/

theorem roundHalfEven_eq_of_near (x : ℚ) (m : ℤ) (h1 : x - m < 1 / 2) (h2 : (m : ℚ) - x < 1 / 2) :
    roundHalfEven x = m := by
  unfold roundHalfEven
  rcases le_or_lt (m : ℚ) x with h | h
  · have hf : ⌊x⌋ = m := by
      rw [Int.floor_eq_iff]
      constructor
      · exact h
      · linarith
    simp only [hf]
    rw [if_pos h1]
  · have hf : ⌊x⌋ = m - 1 := by
      rw [Int.floor_eq_iff]
      push_cast
      constructor
      · linarith
      · linarith
    simp only [hf]
    push_cast
    rw [if_neg (by linarith), if_pos (by linarith)]
    ring

theorem roundHalfEven_intCast (n : ℤ) : roundHalfEven (n : ℚ) = n :=
  roundHalfEven_eq_of_near _ n (by simp) (by simp)

theorem roundHalfEven_floor_or (x : ℚ) :
    (roundHalfEven x = ⌊x⌋ ∧ x - ⌊x⌋ ≤ 1 / 2) ∨ (roundHalfEven x = ⌊x⌋ + 1 ∧ 1 / 2 ≤ x - ⌊x⌋) := by
  unfold roundHalfEven
  simp only
  split_ifs with ha hb hc
  · exact Or.inl ⟨rfl, ha.le⟩
  · exact Or.inr ⟨rfl, hb.le⟩
  · exact Or.inl ⟨rfl, not_lt.1 hb⟩
  · exact Or.inr ⟨rfl, not_lt.1 ha⟩

theorem roundHalfEven_nearest (x : ℚ) (n : ℤ) :
    |(roundHalfEven x : ℚ) - x| ≤ |(n : ℚ) - x| := by
  have h1 : (⌊x⌋ : ℚ) ≤ x := Int.floor_le x
  have h2 : x < ⌊x⌋ + 1 := Int.lt_floor_add_one x
  rcases le_or_lt n ⌊x⌋ with hn | hn
  · have hn' : (n : ℚ) ≤ ⌊x⌋ := by exact_mod_cast hn
    rw [abs_of_nonpos (by linarith : (n : ℚ) - x ≤ 0)]
    rcases roundHalfEven_floor_or x with ⟨h, hr⟩ | ⟨h, hr⟩
    · rw [h, abs_of_nonpos (by linarith)]; linarith
    · rw [h]; push_cast; rw [abs_of_nonneg (by linarith)]; linarith
  · have hn' : (⌊x⌋ : ℚ) + 1 ≤ n := by exact_mod_cast hn
    rw [abs_of_nonneg (by linarith : 0 ≤ (n : ℚ) - x)]
    rcases roundHalfEven_floor_or x with ⟨h, hr⟩ | ⟨h, hr⟩
    · rw [h, abs_of_nonpos (by linarith)]; linarith
    · rw [h]; push_cast; rw [abs_of_nonneg (by linarith)]; linarith

theorem roundHalfEven_sub_le (x : ℚ) : |(roundHalfEven x : ℚ) - x| ≤ 1 / 2 := by
  have h1 : (⌊x⌋ : ℚ) ≤ x := Int.floor_le x
  have h2 : x < ⌊x⌋ + 1 := Int.lt_floor_add_one x
  rcases roundHalfEven_floor_or x with ⟨h, hr⟩ | ⟨h, hr⟩
  · rw [h, abs_of_nonpos (by linarith)]; linarith
  · rw [h]; push_cast; rw [abs_of_nonneg (by linarith)]; linarith

theorem roundHalfEven_abs_le (x : ℚ) (n : ℤ) (h : |x| ≤ n) : |roundHalfEven x| ≤ n := by
  have h0 := roundHalfEven_sub_le x
  rw [abs_le] at h h0 ⊢
  constructor
  · have : (-(n : ℚ)) - 1 < (roundHalfEven x : ℚ) := by linarith
    have : -n - 1 < roundHalfEven x := by exact_mod_cast this
    omega
  · have : (roundHalfEven x : ℚ) < n + 1 := by linarith
    have : roundHalfEven x < n + 1 := by exact_mod_cast this
    omega

theorem log_abs_eq (q : ℚ) (e : ℤ) (h1 : (2 : ℚ) ^ e ≤ |q|) (h2 : |q| < (2 : ℚ) ^ (e + 1)) :
    Int.log 2 |q| = e := by
  have hpos : 0 < |q| := lt_of_lt_of_le (by positivity) h1
  apply le_antisymm
  · have := (Int.lt_zpow_iff_log_lt (b := 2) (by norm_num) hpos (x := e + 1)).1 (by exact_mod_cast h2)
    omega
  · exact (Int.zpow_le_iff_le_log (b := 2) (by norm_num) hpos).1 (by exact_mod_cast h1)

theorem ulpExp_ge (q : ℚ) : -1074 ≤ ulpExp q := le_max_right _ _

theorem abs_lt_zpow_ulpExp (q : ℚ) : |q| < 2 ^ (53 : ℤ) * 2 ^ ulpExp q := by
  have h := Int.lt_zpow_succ_log_self (b := 2) (by norm_num) |q|
  have h' : |q| < (2 : ℚ) ^ (Int.log 2 |q| + 1) := by exact_mod_cast h
  have hle : Int.log 2 |q| + 1 ≤ 53 + ulpExp q := by
    have : Int.log 2 |q| - 52 ≤ ulpExp q := le_max_left _ _
    omega
  calc |q| < (2 : ℚ) ^ (Int.log 2 |q| + 1) := h'
    _ ≤ (2 : ℚ) ^ (53 + ulpExp q) := zpow_le_zpow_right₀ (by norm_num) hle
    _ = 2 ^ (53 : ℤ) * 2 ^ ulpExp q := by rw [zpow_add₀ (by norm_num)]

theorem toDouble_eq_of_near (q : ℚ) (e m : ℤ) (h1 : (2 : ℚ) ^ e ≤ |q|)
    (h2 : |q| < (2 : ℚ) ^ (e + 1)) (he : -1022 ≤ e)
    (h3 : q - m * 2 ^ (e - 52) < 2 ^ (e - 52) / 2)
    (h4 : m * 2 ^ (e - 52) - q < 2 ^ (e - 52) / 2) :
    toDouble q = m * 2 ^ (e - 52) := by
  have hp : ulpExp q = e - 52 := by
    unfold ulpExp
    rw [log_abs_eq q e h1 h2]
    exact max_eq_left (by omega)
  unfold toDouble
  rw [hp]
  have hpos : (0 : ℚ) < 2 ^ (e - 52) := by positivity
  rw [roundHalfEven_eq_of_near (q / 2 ^ (e - 52)) m]
  · rw [div_sub' _ _ _ hpos.ne', div_lt_iff₀ hpos]
    linarith
  · rw [sub_div' _ _ _ hpos.ne', div_lt_iff₀ hpos]
    linarith

theorem toDouble_zero : toDouble 0 = 0 := by
  unfold toDouble
  simp [roundHalfEven]

theorem toDouble_exact (m k : ℤ) (hm : |m| < 2 ^ 53) (hk : -1074 ≤ k) :
    toDouble (m * 2 ^ k) = m * 2 ^ k := by
  rcases eq_or_ne m 0 with rfl | hm0
  · simp [toDouble_zero]
  set q : ℚ := m * 2 ^ k with hq
  have hqpos : 0 < |q| := by
    rw [hq, abs_mul]
    have : (0 : ℚ) < |(m : ℚ)| := abs_pos.2 (by exact_mod_cast hm0)
    positivity
  have hlt : |q| < (2 : ℚ) ^ (53 + k) := by
    rw [hq, abs_mul, abs_of_pos (by positivity : (0 : ℚ) < 2 ^ k), zpow_add₀ (by norm_num)]
    have : |(m : ℚ)| < 2 ^ 53 := by exact_mod_cast hm
    have h2k : (0 : ℚ) < 2 ^ k := by positivity
    rw [show ((2 : ℚ) ^ (53 : ℤ)) = 2 ^ (53 : ℕ) from by norm_num]
    nlinarith
  have hlog : Int.log 2 |q| < 53 + k :=
    (Int.lt_zpow_iff_log_lt (b := 2) (by norm_num) hqpos).1 (by exact_mod_cast hlt)
  have hp : ulpExp q ≤ k := by
    unfold ulpExp
    exact max_le (by omega) hk
  obtain ⟨j, hj⟩ : ∃ j : ℕ, k = ulpExp q + j := ⟨(k - ulpExp q).toNat, by omega⟩
  unfold toDouble
  have hpos : (0 : ℚ) < 2 ^ ulpExp q := by positivity
  have hdiv : q / 2 ^ ulpExp q = ((m * 2 ^ j : ℤ) : ℚ) := by
    rw [div_eq_iff hpos.ne', hq]
    conv_lhs => rw [hj]
    rw [zpow_add₀ (by norm_num)]
    push_cast
    rw [zpow_natCast]
    ring
  rw [hdiv, roundHalfEven_intCast, ← hdiv]
  field_simp

theorem toDouble_of_representable {r : ℚ} (h : Representable r) : toDouble r = r := by
  obtain ⟨m, k, hm, hk, rfl⟩ := h
  exact toDouble_exact m k hm hk

theorem representable_toDouble (q : ℚ) : Representable (toDouble q) := by
  have hpos : (0 : ℚ) < 2 ^ ulpExp q := by positivity
  have hM : |roundHalfEven (q / 2 ^ ulpExp q)| ≤ 2 ^ 53 := by
    have := roundHalfEven_abs_le (q / 2 ^ ulpExp q) (2 ^ 53) (by
      rw [abs_div, abs_of_pos hpos, div_le_iff₀ hpos]
      have := abs_lt_zpow_ulpExp q
      push_cast
      rw [show ((2 : ℚ) ^ (53 : ℤ)) = 2 ^ (53 : ℕ) from by norm_num] at this
      exact this.le)
    exact this
  rcases lt_or_eq_of_le hM with hlt | heq
  · exact ⟨_, ulpExp q, hlt, ulpExp_ge q, rfl⟩
  · refine ⟨roundHalfEven (q / 2 ^ ulpExp q) / 2, ulpExp q + 1, ?_, ?_, ?_⟩
    · rcases abs_eq (by norm_num : (0 : ℤ) ≤ 2 ^ 53) |>.1 heq with h | h
      · rw [h]; norm_num
      · rw [h]; norm_num
    · have := ulpExp_ge q; omega
    · unfold toDouble
      rw [zpow_add₀ (by norm_num)]
      rcases abs_eq (by norm_num : (0 : ℤ) ≤ 2 ^ 53) |>.1 heq with h | h
      · rw [h]; norm_num; ring
      · rw [h]; norm_num; ring

theorem toDouble_idem (q : ℚ) : toDouble (toDouble q) = toDouble q :=
  toDouble_of_representable (representable_toDouble q)

theorem toDouble_grid_nearest (q : ℚ) (n : ℤ) :
    |toDouble q - q| ≤ |(n : ℚ) * 2 ^ ulpExp q - q| := by
  have hpos : (0 : ℚ) < 2 ^ ulpExp q := by positivity
  have h := roundHalfEven_nearest (q / 2 ^ ulpExp q) n
  have e1 : ∀ a : ℚ, a * 2 ^ ulpExp q - q = (a - q / 2 ^ ulpExp q) * 2 ^ ulpExp q := by
    intro a; field_simp
  unfold toDouble
  rw [e1, e1, abs_mul, abs_mul, abs_of_pos hpos]
  exact mul_le_mul_of_nonneg_right h hpos.le

theorem toDouble_sub_le (q : ℚ) : |toDouble q - q| ≤ 2 ^ ulpExp q / 2 := by
  unfold toDouble
  have hpos : (0 : ℚ) < 2 ^ ulpExp q := by positivity
  have h := roundHalfEven_sub_le (q / 2 ^ ulpExp q)
  have e1 : (roundHalfEven (q / 2 ^ ulpExp q) : ℚ) * 2 ^ ulpExp q - q
      = ((roundHalfEven (q / 2 ^ ulpExp q) : ℚ) - q / 2 ^ ulpExp q) * 2 ^ ulpExp q := by
    field_simp
  rw [e1, abs_mul, abs_of_pos hpos]
  calc |(roundHalfEven (q / 2 ^ ulpExp q) : ℚ) - q / 2 ^ ulpExp q| * 2 ^ ulpExp q
      ≤ 1 / 2 * 2 ^ ulpExp q := by gcongr
    _ = 2 ^ ulpExp q / 2 := by ring

theorem toDouble_nearest (q : ℚ) {r : ℚ} (hr : Representable r) :
    |toDouble q - q| ≤ |r - q| := by
  rcases eq_or_ne q 0 with rfl | hq0
  · rw [toDouble_zero]; simp
  obtain ⟨m, k, hm, hk, rfl⟩ := hr
  rcases le_or_lt (ulpExp q) k with hpk | hpk
  · obtain ⟨j, hj⟩ : ∃ j : ℕ, k = ulpExp q + j := ⟨(k - ulpExp q).toNat, by omega⟩
    have := toDouble_grid_nearest q (m * 2 ^ j)
    have e : (((m * 2 ^ j : ℤ) : ℚ)) * 2 ^ ulpExp q = (m : ℚ) * 2 ^ k := by
      conv_rhs => rw [hj]
      rw [zpow_add₀ (by norm_num)]
      push_cast
      rw [zpow_natCast]
      ring
    rwa [e] at this
  · -- the representable number is finer than the grid, hence below the binade of `q`
    have hqpos : 0 < |q| := abs_pos.2 hq0
    have hlow : (2 : ℚ) ^ (Int.log 2 |q|) ≤ |q| := by
      have := Int.zpow_log_le_self (b := 2) (by norm_num) hqpos
      exact_mod_cast this
    have hlog : ulpExp q = Int.log 2 |q| - 52 := by
      unfold ulpExp at hpk ⊢
      rcases max_cases (Int.log 2 |q| - 52) (-1074) with ⟨h, _⟩ | ⟨h, _⟩
      · exact h
      · rw [h] at hpk; omega
    obtain ⟨L, hL⟩ : ∃ L : ℤ, L = Int.log 2 |q| := ⟨_, rfl⟩
    rw [← hL] at hlow hlog
    have hr : |(m : ℚ) * 2 ^ k| < (2 : ℚ) ^ L := by
      have h2k : (0 : ℚ) < 2 ^ k := by positivity
      rw [abs_mul, abs_of_pos h2k]
      have hm' : |(m : ℚ)| < 2 ^ (53 : ℤ) := by
        rw [show ((2 : ℚ) ^ (53 : ℤ)) = 2 ^ (53 : ℕ) from by norm_num]
        exact_mod_cast hm
      calc |(m : ℚ)| * 2 ^ k < 2 ^ (53 : ℤ) * 2 ^ k := by nlinarith
        _ = (2 : ℚ) ^ (53 + k) := by rw [zpow_add₀ (by norm_num)]
        _ ≤ (2 : ℚ) ^ L := zpow_le_zpow_right₀ (by norm_num) (by omega)
    have hgrid : (2 : ℚ) ^ L = (2 : ℚ) ^ (52 : ℤ) * 2 ^ ulpExp q := by
      rw [hlog, ← zpow_add₀ (by norm_num)]
      congr 1
      ring
    have hcast : (((2 ^ 52 : ℤ)) : ℚ) = (2 : ℚ) ^ (52 : ℤ) := by norm_num
    rw [abs_lt] at hr
    rcases lt_or_gt_of_ne hq0 with hneg | hposq
    · have h1 := toDouble_grid_nearest q (-(2 ^ 52))
      have e : (((-(2 ^ 52) : ℤ)) : ℚ) * 2 ^ ulpExp q = -(2 : ℚ) ^ L := by
        rw [hgrid, Int.cast_neg, hcast]; ring
      rw [e] at h1
      have habs : |q| = -q := abs_of_neg hneg
      have h2 : |(-(2 : ℚ) ^ L) - q| ≤ |(m : ℚ) * 2 ^ k - q| := by
        rw [abs_of_nonneg (by linarith), abs_of_nonneg (by linarith)]
        linarith
      exact h1.trans h2
    · have h1 := toDouble_grid_nearest q (2 ^ 52)
      rw [hcast, ← hgrid] at h1
      have habs : |q| = q := abs_of_pos hposq
      have h2 : |(2 : ℚ) ^ L - q| ≤ |(m : ℚ) * 2 ^ k - q| := by
        rw [abs_of_nonpos (by linarith), abs_of_nonpos (by linarith)]
        linarith
      exact h1.trans h2

theorem le_toDouble {r x : ℚ} (hr : Representable r) (h : r ≤ x) : r ≤ toDouble x := by
  by_contra hlt
  push_neg at hlt
  have := toDouble_nearest x hr
  rw [abs_of_nonpos (by linarith), abs_of_nonpos (by linarith)] at this
  linarith

theorem toDouble_le {r x : ℚ} (hr : Representable r) (h : x ≤ r) : toDouble x ≤ r := by
  by_contra hlt
  push_neg at hlt
  have := toDouble_nearest x hr
  rw [abs_of_nonneg (by linarith), abs_of_nonneg (by linarith)] at this
  linarith

theorem toDouble_mono {a b : ℚ} (h : a ≤ b) : toDouble a ≤ toDouble b := by
  rcases le_or_lt (toDouble a) b with hab | hab
  · exact le_toDouble (representable_toDouble a) hab
  · by_contra hlt
    push_neg at hlt
    have h1 := toDouble_nearest a (representable_toDouble b)
    have h2 := toDouble_nearest b (representable_toDouble a)
    rw [abs_of_nonneg (by linarith)] at h1
    rw [abs_of_nonneg (by linarith : 0 ≤ toDouble a - b)] at h2
    rcases le_or_lt a (toDouble b) with hba | hba
    · rw [abs_of_nonneg (by linarith)] at h1
      linarith
    · rw [abs_of_nonpos (by linarith)] at h1
      rw [abs_of_nonpos (by linarith)] at h2
      have hmid : a = b := by linarith
      rw [hmid] at hba
      rw [hmid] at hab
      linarith

theorem representable_intCast (n : ℤ) (h : |n| < 2 ^ 53) : Representable (n : ℚ) :=
  ⟨n, 0, h, by norm_num, by simp⟩

theorem representable_neg {r : ℚ} (h : Representable r) : Representable (-r) := by
  obtain ⟨m, k, hm, hk, rfl⟩ := h
  exact ⟨-m, k, by rwa [abs_neg], hk, by push_cast; ring⟩

/-! ## Exact values of the literals -/

theorem lit_satellite_position_x : lit 2.2363356030075563 = 2517890047095051 / 2 ^ 50 := by
  unfold lit
  rw [toDouble_eq_of_near 2.2363356030075563 (1) 5035780094190102 (by rw [abs_of_pos (by norm_num)]; norm_num)
    (by rw [abs_of_pos (by norm_num)]; norm_num) (by norm_num) (by norm_num) (by norm_num)]
  norm_num

theorem lit_satellite_position_y : lit 2.820678683267509 = 6351603733447727 / 2 ^ 51 := by
  unfold lit
  rw [toDouble_eq_of_near 2.820678683267509 (1) 6351603733447727 (by rw [abs_of_pos (by norm_num)]; norm_num)
    (by rw [abs_of_pos (by norm_num)]; norm_num) (by norm_num) (by norm_num) (by norm_num)]
  norm_num

theorem lit_satellite_position_z : lit 2.684753953671324 = 1511382113166955 / 2 ^ 49 := by
  unfold lit
  rw [toDouble_eq_of_near 2.684753953671324 (1) 6045528452667820 (by rw [abs_of_pos (by norm_num)]; norm_num)
    (by rw [abs_of_pos (by norm_num)]; norm_num) (by norm_num) (by norm_num) (by norm_num)]
  norm_num

theorem lit_satellite_lookAt_x : lit 0 = 0 := toDouble_zero

theorem lit_satellite_lookAt_y : lit 2 = 2 := by
  unfold lit
  rw [toDouble_eq_of_near 2 (1) 4503599627370496 (by rw [abs_of_pos (by norm_num)]; norm_num)
    (by rw [abs_of_pos (by norm_num)]; norm_num) (by norm_num) (by norm_num) (by norm_num)]
  norm_num

theorem lit_satellite_lookAt_z : lit 0.5 = 1 / 2 ^ 1 := by
  unfold lit
  rw [toDouble_eq_of_near 0.5 (-1) 4503599627370496 (by rw [abs_of_pos (by norm_num)]; norm_num)
    (by rw [abs_of_pos (by norm_num)]; norm_num) (by norm_num) (by norm_num) (by norm_num)]
  norm_num

theorem satellitePointData_value :
    satellitePointData =
      { position := { x := 2517890047095051 / 2 ^ 50, y := 6351603733447727 / 2 ^ 51, z := 1511382113166955 / 2 ^ 49 }
        lookAt := { x := 0, y := 2, z := -(1 / 2 ^ 1) } } := by
  unfold satellitePointData
  rw [lit_satellite_position_x, lit_satellite_position_y, lit_satellite_position_z, lit_satellite_lookAt_x, lit_satellite_lookAt_y, lit_satellite_lookAt_z]

theorem lit_machineGun_position_x : lit 0.5760624910715781 = 2594354820132079 / 2 ^ 52 := by
  unfold lit
  rw [toDouble_eq_of_near 0.5760624910715781 (-1) 5188709640264158 (by rw [abs_of_pos (by norm_num)]; norm_num)
    (by rw [abs_of_pos (by norm_num)]; norm_num) (by norm_num) (by norm_num) (by norm_num)]
  norm_num

theorem lit_machineGun_position_y : lit 3.051817229890369 = 6872081469668563 / 2 ^ 51 := by
  unfold lit
  rw [toDouble_eq_of_near 3.051817229890369 (1) 6872081469668563 (by rw [abs_of_pos (by norm_num)]; norm_num)
    (by rw [abs_of_pos (by norm_num)]; norm_num) (by norm_num) (by norm_num) (by norm_num)]
  norm_num

theorem lit_machineGun_position_z : lit 0.4757104852229018 = 4284819127972197 / 2 ^ 53 := by
  unfold lit
  rw [toDouble_eq_of_near 0.4757104852229018 (-2) 8569638255944394 (by rw [abs_of_pos (by norm_num)]; norm_num)
    (by rw [abs_of_pos (by norm_num)]; norm_num) (by norm_num) (by norm_num) (by norm_num)]
  norm_num

theorem lit_machineGun_lookAt_x : lit 0.3332266219157822 = 6002877161159383 / 2 ^ 54 := by
  unfold lit
  rw [toDouble_eq_of_near 0.3332266219157822 (-2) 6002877161159383 (by rw [abs_of_pos (by norm_num)]; norm_num)
    (by rw [abs_of_pos (by norm_num)]; norm_num) (by norm_num) (by norm_num) (by norm_num)]
  norm_num

theorem lit_machineGun_lookAt_y : lit 2.2358192826928676 = 1258654361050421 / 2 ^ 49 := by
  unfold lit
  rw [toDouble_eq_of_near 2.2358192826928676 (1) 5034617444201684 (by rw [abs_of_pos (by norm_num)]; norm_num)
    (by rw [abs_of_pos (by norm_num)]; norm_num) (by norm_num) (by norm_num) (by norm_num)]
  norm_num

theorem lit_machineGun_lookAt_z : lit 0.5257846919885497 = 4735847485833487 / 2 ^ 53 := by
  unfold lit
  rw [toDouble_eq_of_near 0.5257846919885497 (-1) 4735847485833487 (by rw [abs_of_pos (by norm_num)]; norm_num)
    (by rw [abs_of_pos (by norm_num)]; norm_num) (by norm_num) (by norm_num) (by norm_num)]
  norm_num

theorem machineGunPointData_value :
    machineGunPointData =
      { position := { x := 2594354820132079 / 2 ^ 52, y := 6872081469668563 / 2 ^ 51, z := 4284819127972197 / 2 ^ 53 }
        lookAt := { x := -(6002877161159383 / 2 ^ 54), y := 1258654361050421 / 2 ^ 49, z := -(4735847485833487 / 2 ^ 53) } } := by
  unfold machineGunPointData
  rw [lit_machineGun_position_x, lit_machineGun_position_y, lit_machineGun_position_z, lit_machineGun_lookAt_x, lit_machineGun_lookAt_y, lit_machineGun_lookAt_z]

theorem lit_frontal_position_x : lit 1.6956829343157755 = 1909169257780759 / 2 ^ 50 := by
  unfold lit
  rw [toDouble_eq_of_near 1.6956829343157755 (0) 7636677031123036 (by rw [abs_of_pos (by norm_num)]; norm_num)
    (by rw [abs_of_pos (by norm_num)]; norm_num) (by norm_num) (by norm_num) (by norm_num)]
  norm_num

theorem lit_frontal_position_y : lit 2.911476432638847 = 3278031044282573 / 2 ^ 50 := by
  unfold lit
  rw [toDouble_eq_of_near 2.911476432638847 (1) 6556062088565146 (by rw [abs_of_pos (by norm_num)]; norm_num)
    (by rw [abs_of_pos (by norm_num)]; norm_num) (by norm_num) (by norm_num) (by norm_num)]
  norm_num

theorem lit_frontal_position_z : lit 6.006285240809736 = 6762475993097909 / 2 ^ 50 := by
  unfold lit
  rw [toDouble_eq_of_near 6.006285240809736 (2) 6762475993097909 (by rw [abs_of_pos (by norm_num)]; norm_num)
    (by rw [abs_of_pos (by norm_num)]; norm_num) (by norm_num) (by norm_num) (by norm_num)]
  norm_num

theorem lit_frontal_lookAt_x : lit 0.12111220935307855 = 8727054414600673 / 2 ^ 56 := by
  unfold lit
  rw [toDouble_eq_of_near 0.12111220935307855 (-4) 8727054414600673 (by rw [abs_of_pos (by norm_num)]; norm_num)
    (by rw [abs_of_pos (by norm_num)]; norm_num) (by norm_num) (by norm_num) (by norm_num)]
  norm_num

theorem lit_frontal_lookAt_y : lit 1.2546289604273042 = 176573328708395 / 2 ^ 47 := by
  unfold lit
  rw [toDouble_eq_of_near 1.2546289604273042 (0) 5650346518668640 (by rw [abs_of_pos (by norm_num)]; norm_num)
    (by rw [abs_of_pos (by norm_num)]; norm_num) (by norm_num) (by norm_num) (by norm_num)]
  norm_num

theorem lit_frontal_lookAt_z : lit 0.3443322137823006 = 1550734429681627 / 2 ^ 52 := by
  unfold lit
  rw [toDouble_eq_of_near 0.3443322137823006 (-2) 6202937718726508 (by rw [abs_of_pos (by norm_num)]; norm_num)
    (by rw [abs_of_pos (by norm_num)]; norm_num) (by norm_num) (by norm_num) (by norm_num)]
  norm_num

theorem frontalPointData_value :
    frontalPointData =
      { position := { x := -(1909169257780759 / 2 ^ 50), y := 3278031044282573 / 2 ^ 50, z := 6762475993097909 / 2 ^ 50 }
        lookAt := { x := -(8727054414600673 / 2 ^ 56), y := 176573328708395 / 2 ^ 47, z := -(1550734429681627 / 2 ^ 52) } } := by
  unfold frontalPointData
  rw [lit_frontal_position_x, lit_frontal_position_y, lit_frontal_position_z, lit_frontal_lookAt_x, lit_frontal_lookAt_y, lit_frontal_lookAt_z]

theorem lit_sidePod_position_x : lit 3.842264605996623 = 4326005361956309 / 2 ^ 50 := by
  unfold lit
  rw [toDouble_eq_of_near 3.842264605996623 (1) 8652010723912618 (by rw [abs_of_pos (by norm_num)]; norm_num)
    (by rw [abs_of_pos (by norm_num)]; norm_num) (by norm_num) (by norm_num) (by norm_num)]
  norm_num

theorem lit_sidePod_position_y : lit 2.531246896437086 = 712482661223549 / 2 ^ 48 := by
  unfold lit
  rw [toDouble_eq_of_near 2.531246896437086 (1) 5699861289788392 (by rw [abs_of_pos (by norm_num)]; norm_num)
    (by rw [abs_of_pos (by norm_num)]; norm_num) (by norm_num) (by norm_num) (by norm_num)]
  norm_num

theorem lit_sidePod_position_z : lit 3.2344043181914017 = 455201940067885 / 2 ^ 47 := by
  unfold lit
  rw [toDouble_eq_of_near 3.2344043181914017 (1) 7283231041086160 (by rw [abs_of_pos (by norm_num)]; norm_num)
    (by rw [abs_of_pos (by norm_num)]; norm_num) (by norm_num) (by norm_num) (by norm_num)]
  norm_num

theorem lit_sidePod_lookAt_x : lit 1.2075112121972915 = 2719073522648709 / 2 ^ 51 := by
  unfold lit
  rw [toDouble_eq_of_near 1.2075112121972915 (0) 5438147045297418 (by rw [abs_of_pos (by norm_num)]; norm_num)
    (by rw [abs_of_pos (by norm_num)]; norm_num) (by norm_num) (by norm_num) (by norm_num)]
  norm_num

theorem lit_sidePod_lookAt_y : lit 1.598525061225214 = 7199116870076273 / 2 ^ 52 := by
  unfold lit
  rw [toDouble_eq_of_near 1.598525061225214 (0) 7199116870076273 (by rw [abs_of_pos (by norm_num)]; norm_num)
    (by rw [abs_of_pos (by norm_num)]; norm_num) (by norm_num) (by norm_num) (by norm_num)]
  norm_num

theorem lit_sidePod_lookAt_z : lit 1.0790626359441582 = 303729130321721 / 2 ^ 48 := by
  unfold lit
  rw [toDouble_eq_of_near 1.0790626359441582 (0) 4859666085147536 (by rw [abs_of_pos (by norm_num)]; norm_num)
    (by rw [abs_of_pos (by norm_num)]; norm_num) (by norm_num) (by norm_num) (by norm_num)]
  norm_num

theorem sidePodPointData_value :
    sidePodPointData =
      { position := { x := -(4326005361956309 / 2 ^ 50), y := 712482661223549 / 2 ^ 48, z := 455201940067885 / 2 ^ 47 }
        lookAt := { x := -(2719073522648709 / 2 ^ 51), y := 7199116870076273 / 2 ^ 52, z := -(303729130321721 / 2 ^ 48) } } := by
  unfold sidePodPointData
  rw [lit_sidePod_position_x, lit_sidePod_position_y, lit_sidePod_position_z, lit_sidePod_lookAt_x, lit_sidePod_lookAt_y, lit_sidePod_lookAt_z]

theorem lit_airConditioning_position_x : lit 0.5680513933598731 = 5116552086925631 / 2 ^ 53 := by
  unfold lit
  rw [toDouble_eq_of_near 0.5680513933598731 (-1) 5116552086925631 (by rw [abs_of_pos (by norm_num)]; norm_num)
    (by rw [abs_of_pos (by norm_num)]; norm_num) (by norm_num) (by norm_num) (by norm_num)]
  norm_num

theorem lit_airConditioning_position_y : lit 3.8647939449647435 = 2175685571300871 / 2 ^ 49 := by
  unfold lit
  rw [toDouble_eq_of_near 3.8647939449647435 (1) 8702742285203484 (by rw [abs_of_pos (by norm_num)]; norm_num)
    (by rw [abs_of_pos (by norm_num)]; norm_num) (by norm_num) (by norm_num) (by norm_num)]
  norm_num

theorem lit_airConditioning_position_z : lit 2.8722469298357245 = 3233862550731055 / 2 ^ 50 := by
  unfold lit
  rw [toDouble_eq_of_near 2.8722469298357245 (1) 6467725101462110 (by rw [abs_of_pos (by norm_num)]; norm_num)
    (by rw [abs_of_pos (by norm_num)]; norm_num) (by norm_num) (by norm_num) (by norm_num)]
  norm_num

theorem lit_airConditioning_lookAt_x : lit 0.03259431926139941 = 1174334112640267 / 2 ^ 55 := by
  unfold lit
  rw [toDouble_eq_of_near 0.03259431926139941 (-5) 4697336450561068 (by rw [abs_of_pos (by norm_num)]; norm_num)
    (by rw [abs_of_pos (by norm_num)]; norm_num) (by norm_num) (by norm_num) (by norm_num)]
  norm_num

theorem lit_airConditioning_lookAt_y : lit 2.3942898229981293 = 5391461377335673 / 2 ^ 51 := by
  unfold lit
  rw [toDouble_eq_of_near 2.3942898229981293 (1) 5391461377335673 (by rw [abs_of_pos (by norm_num)]; norm_num)
    (by rw [abs_of_pos (by norm_num)]; norm_num) (by norm_num) (by norm_num) (by norm_num)]
  norm_num

theorem lit_airConditioning_lookAt_z : lit 1.899660839467895 = 534706990547371 / 2 ^ 48 := by
  unfold lit
  rw [toDouble_eq_of_near 1.899660839467895 (0) 8555311848757936 (by rw [abs_of_pos (by norm_num)]; norm_num)
    (by rw [abs_of_pos (by norm_num)]; norm_num) (by norm_num) (by norm_num) (by norm_num)]
  norm_num

theorem airConditioningPointData_value :
    airConditioningPointData =
      { position := { x := -(5116552086925631 / 2 ^ 53), y := 2175685571300871 / 2 ^ 49, z := -(3233862550731055 / 2 ^ 50) }
        lookAt := { x := -(1174334112640267 / 2 ^ 55), y := 5391461377335673 / 2 ^ 51, z := -(534706990547371 / 2 ^ 48) } } := by
  unfold airConditioningPointData
  rw [lit_airConditioning_position_x, lit_airConditioning_position_y, lit_airConditioning_position_z, lit_airConditioning_lookAt_x, lit_airConditioning_lookAt_y, lit_airConditioning_lookAt_z]

theorem lit_warpDrive_position_x : lit 2.2960948510395087 = 5170345957774423 / 2 ^ 51 := by
  unfold lit
  rw [toDouble_eq_of_near 2.2960948510395087 (1) 5170345957774423 (by rw [abs_of_pos (by norm_num)]; norm_num)
    (by rw [abs_of_pos (by norm_num)]; norm_num) (by norm_num) (by norm_num) (by norm_num)]
  norm_num

theorem lit_warpDrive_position_y : lit 2.3045136500926064 = 2594651703956821 / 2 ^ 50 := by
  unfold lit
  rw [toDouble_eq_of_near 2.3045136500926064 (1) 5189303407913642 (by rw [abs_of_pos (by norm_num)]; norm_num)
    (by rw [abs_of_pos (by norm_num)]; norm_num) (by norm_num) (by norm_num) (by norm_num)]
  norm_num

theorem lit_warpDrive_position_z : lit 3.7251187837076998 = 131065965361069 / 2 ^ 45 := by
  unfold lit
  rw [toDouble_eq_of_near 3.7251187837076998 (1) 8388221783108416 (by rw [abs_of_pos (by norm_num)]; norm_num)
    (by rw [abs_of_pos (by norm_num)]; norm_num) (by norm_num) (by norm_num) (by norm_num)]
  norm_num

theorem lit_warpDrive_lookAt_x : lit 0.22176763221662282 = 3995010503254479 / 2 ^ 54 := by
  unfold lit
  rw [toDouble_eq_of_near 0.22176763221662282 (-3) 7990021006508958 (by rw [abs_of_pos (by norm_num)]; norm_num)
    (by rw [abs_of_pos (by norm_num)]; norm_num) (by norm_num) (by norm_num) (by norm_num)]
  norm_num

theorem lit_warpDrive_lookAt_y : lit 1.7171330696876503 = 3866639926395429 / 2 ^ 51 := by
  unfold lit
  rw [toDouble_eq_of_near 1.7171330696876503 (0) 7733279852790858 (by rw [abs_of_pos (by norm_num)]; norm_num)
    (by rw [abs_of_pos (by norm_num)]; norm_num) (by norm_num) (by norm_num) (by norm_num)]
  norm_num

theorem lit_warpDrive_lookAt_z : lit 1.974151811476235 = 4445394681268581 / 2 ^ 51 := by
  unfold lit
  rw [toDouble_eq_of_near 1.974151811476235 (0) 8890789362537162 (by rw [abs_of_pos (by norm_num)]; norm_num)
    (by rw [abs_of_pos (by norm_num)]; norm_num) (by norm_num) (by norm_num) (by norm_num)]
  norm_num

theorem warpDrivePointData_value :
    warpDrivePointData =
      { position := { x := -(5170345957774423 / 2 ^ 51), y := 2594651703956821 / 2 ^ 50, z := -(131065965361069 / 2 ^ 45) }
        lookAt := { x := -(3995010503254479 / 2 ^ 54), y := 3866639926395429 / 2 ^ 51, z := -(4445394681268581 / 2 ^ 51) } } := by
  unfold warpDrivePointData
  rw [lit_warpDrive_position_x, lit_warpDrive_position_y, lit_warpDrive_position_z, lit_warpDrive_lookAt_x, lit_warpDrive_lookAt_y, lit_warpDrive_lookAt_z]

theorem lit_minDistance : lit 0.1 = 3602879701896397 / 2 ^ 55 := by
  unfold lit
  rw [toDouble_eq_of_near 0.1 (-4) 7205759403792794 (by rw [abs_of_pos (by norm_num)]; norm_num)
    (by rw [abs_of_pos (by norm_num)]; norm_num) (by norm_num) (by norm_num) (by norm_num)]
  norm_num

theorem lit_half : lit 0.5 = 1 / 2 ^ 1 := by
  unfold lit
  rw [toDouble_eq_of_near 0.5 (-1) 4503599627370496 (by rw [abs_of_pos (by norm_num)]; norm_num)
    (by rw [abs_of_pos (by norm_num)]; norm_num) (by norm_num) (by norm_num) (by norm_num)]
  norm_num

theorem lit_three_halves : lit 1.5 = 3 / 2 ^ 1 := by
  unfold lit
  rw [toDouble_eq_of_near 1.5 (0) 6755399441055744 (by rw [abs_of_pos (by norm_num)]; norm_num)
    (by rw [abs_of_pos (by norm_num)]; norm_num) (by norm_num) (by norm_num) (by norm_num)]
  norm_num

/-! ## Two settled values, computed -/

theorem settle_sidePod_airConditioning_x_sub :
    toDouble (-(1174334112640267 / 2 ^ 55) - -(2719073522648709 / 2 ^ 51)) = 5291355281217385 / 2 ^ 52 := by
  rw [toDouble_eq_of_near (-(1174334112640267 / 2 ^ 55) - -(2719073522648709 / 2 ^ 51)) (0) (5291355281217385)
    (by rw [abs_of_pos (by norm_num)]; norm_num) (by rw [abs_of_pos (by norm_num)]; norm_num)
    (by norm_num) (by norm_num) (by norm_num)]
  norm_num

theorem settle_sidePod_airConditioning_x_add :
    toDouble (-(2719073522648709 / 2 ^ 51) + 5291355281217385 / 2 ^ 52) = -(146791764080033 / 2 ^ 52) := by
  rw [toDouble_eq_of_near (-(2719073522648709 / 2 ^ 51) + 5291355281217385 / 2 ^ 52) (-5) (-4697336450561056)
    (by rw [abs_of_neg (by norm_num)]; norm_num) (by rw [abs_of_neg (by norm_num)]; norm_num)
    (by norm_num) (by norm_num) (by norm_num)]
  norm_num

theorem settle_sidePod_airConditioning_x :
    settle (-(2719073522648709 / 2 ^ 51)) (-(1174334112640267 / 2 ^ 55)) = -(146791764080033 / 2 ^ 52) := by
  unfold settle fadd fsub
  rw [settle_sidePod_airConditioning_x_sub, settle_sidePod_airConditioning_x_add]

theorem settle_satellite_airConditioning_x_sub :
    toDouble (-(5116552086925631 / 2 ^ 53) - 2517890047095051 / 2 ^ 50) = -(3157459057960755 / 2 ^ 50) := by
  rw [toDouble_eq_of_near (-(5116552086925631 / 2 ^ 53) - 2517890047095051 / 2 ^ 50) (1) (-6314918115921510)
    (by rw [abs_of_neg (by norm_num)]; norm_num) (by rw [abs_of_neg (by norm_num)]; norm_num)
    (by norm_num) (by norm_num) (by norm_num)]
  norm_num

theorem settle_satellite_airConditioning_x_add :
    toDouble (2517890047095051 / 2 ^ 50 + -(3157459057960755 / 2 ^ 50)) = -(79946126358213 / 2 ^ 47) := by
  rw [toDouble_eq_of_near (2517890047095051 / 2 ^ 50 + -(3157459057960755 / 2 ^ 50)) (-1) (-5116552086925632)
    (by rw [abs_of_neg (by norm_num)]; norm_num) (by rw [abs_of_neg (by norm_num)]; norm_num)
    (by norm_num) (by norm_num) (by norm_num)]
  norm_num

theorem settle_satellite_airConditioning_x :
    settle (2517890047095051 / 2 ^ 50) (-(5116552086925631 / 2 ^ 53)) = -(79946126358213 / 2 ^ 47) := by
  unfold settle fadd fsub
  rw [settle_satellite_airConditioning_x_sub, settle_satellite_airConditioning_x_add]


/-! ## Trigonometric bounds for the orbit limits -/

theorem cos_half_ge : (7 / 8 : ℝ) ≤ Real.cos (1 / 2) := by
  have := Real.one_sub_sq_div_two_le_cos (x := 1 / 2)
  norm_num at this ⊢
  linarith

theorem cos_half_le : Real.cos (1 / 2) ≤ (88 / 100 : ℝ) := by
  have h := Real.cos_bound (x := 1 / 2) (by rw [abs_of_pos (by norm_num)]; norm_num)
  rw [abs_le] at h
  rw [abs_of_pos (by norm_num : (0 : ℝ) < 1 / 2)] at h
  norm_num at h ⊢
  linarith [h.2]

theorem cos_three_halves_le : Real.cos (3 / 2) ≤ (1 / 10 : ℝ) := by
  have h := Real.cos_bound (x := 3 / 4) (by rw [abs_of_pos (by norm_num)]; norm_num)
  rw [abs_le] at h
  rw [abs_of_pos (by norm_num : (0 : ℝ) < 3 / 4)] at h
  have hpos : 0 ≤ Real.cos (3 / 4) :=
    Real.cos_nonneg_of_neg_pi_div_two_le_of_le (by linarith [Real.pi_gt_three])
      (by linarith [Real.pi_gt_three])
  have hup : Real.cos (3 / 4) ≤ 736 / 1000 := by
    norm_num at h ⊢
    linarith [h.2]
  have h2 : Real.cos (3 / 2) = 2 * Real.cos (3 / 4) ^ 2 - 1 := by
    rw [← Real.cos_two_mul]
    norm_num
  rw [h2]
  nlinarith

theorem polarAngle_mem (d : Vec3) : 0 ≤ d.polarAngle ∧ d.polarAngle ≤ Real.pi := by
  unfold Vec3.polarAngle
  exact ⟨Complex.arg_nonneg_iff.2 (Real.sqrt_nonneg _), Complex.arg_le_pi _⟩

theorem cos_polarAngle (d : Vec3) (h : 0 < d.y) :
    Real.cos d.polarAngle = (d.y : ℝ) / d.length := by
  unfold Vec3.polarAngle Vec3.length
  have hy : (0 : ℝ) < d.y := by exact_mod_cast h
  rw [Complex.cos_arg]
  · congr 1
    rw [Complex.abs_apply, Complex.normSq_mk, ← pow_two, ← pow_two,
      Real.sq_sqrt (by positivity)]
    congr 1
    ring
  · intro h0
    have := congrArg Complex.re h0
    simp at this
    linarith

theorem length_pos (d : Vec3) (h : 0 < d.y) : 0 < d.length := by
  unfold Vec3.length
  have hy : (0 : ℝ) < d.y := by exact_mod_cast h
  apply Real.sqrt_pos.2
  positivity

theorem length_sq (d : Vec3) : d.length ^ 2 = ((d.x ^ 2 + d.y ^ 2 + d.z ^ 2 : ℚ) : ℝ) := by
  unfold Vec3.length
  rw [Real.sq_sqrt (by positivity)]
  push_cast
  ring

/-- Lower and upper bounds on the length from bounds on its square. -/
theorem length_bounds (d : Vec3) (lo hi : ℚ) (hlo : 0 ≤ lo) (hhi : 0 ≤ hi)
    (h1 : lo ^ 2 ≤ d.x ^ 2 + d.y ^ 2 + d.z ^ 2) (h2 : d.x ^ 2 + d.y ^ 2 + d.z ^ 2 ≤ hi ^ 2) :
    (lo : ℝ) ≤ d.length ∧ d.length ≤ (hi : ℝ) := by
  have hl := length_sq d
  have hn : 0 ≤ d.length := Real.sqrt_nonneg _
  have h1' : ((lo ^ 2 : ℚ) : ℝ) ≤ ((d.x ^ 2 + d.y ^ 2 + d.z ^ 2 : ℚ) : ℝ) := by exact_mod_cast h1
  have h2' : ((d.x ^ 2 + d.y ^ 2 + d.z ^ 2 : ℚ) : ℝ) ≤ ((hi ^ 2 : ℚ) : ℝ) := by exact_mod_cast h2
  have hlo' : (0 : ℝ) ≤ lo := by exact_mod_cast hlo
  have hhi' : (0 : ℝ) ≤ hi := by exact_mod_cast hhi
  push_cast at h1' h2' hl
  rw [← hl] at h1' h2'
  constructor
  · nlinarith
  · nlinarith

/-- The polar angle lies in `[1/2, 3/2]` as soon as the height is positive and
its ratio to the length lies in `[1/10, 7/8]`, stated on squares. -/
theorem polarAngle_bounds (d : Vec3) (hy : 0 < d.y)
    (h1 : d.y ^ 2 ≤ (7 / 8) ^ 2 * (d.x ^ 2 + d.y ^ 2 + d.z ^ 2))
    (h2 : (1 / 10) ^ 2 * (d.x ^ 2 + d.y ^ 2 + d.z ^ 2) ≤ d.y ^ 2) :
    (1 / 2 : ℝ) ≤ d.polarAngle ∧ d.polarAngle ≤ (3 / 2 : ℝ) := by
  have hl := length_sq d
  have hlen := length_pos d hy
  have hy' : (0 : ℝ) < d.y := by exact_mod_cast hy
  have h1' : ((d.y ^ 2 : ℚ) : ℝ) ≤ (((7 / 8) ^ 2 * (d.x ^ 2 + d.y ^ 2 + d.z ^ 2) : ℚ) : ℝ) := by
    exact_mod_cast h1
  have h2' : ((((1 / 10) ^ 2 * (d.x ^ 2 + d.y ^ 2 + d.z ^ 2) : ℚ)) : ℝ) ≤ ((d.y ^ 2 : ℚ) : ℝ) := by
    exact_mod_cast h2
  push_cast at h1' h2' hl
  rw [← hl] at h1' h2'
  have hcos := cos_polarAngle d hy
  have hmem := polarAngle_mem d
  have hratio1 : (d.y : ℝ) / d.length ≤ 7 / 8 := by
    rw [div_le_iff₀ hlen]
    nlinarith
  have hratio2 : (1 / 10 : ℝ) ≤ (d.y : ℝ) / d.length := by
    rw [le_div_iff₀ hlen]
    nlinarith
  constructor
  · by_contra hlt
    push_neg at hlt
    have := Real.cos_lt_cos_of_nonneg_of_le_pi hmem.1 (by linarith [Real.pi_gt_three]) hlt
    linarith [cos_half_ge]
  · by_contra hlt
    push_neg at hlt
    have := Real.cos_lt_cos_of_nonneg_of_le_pi (by norm_num : (0 : ℝ) ≤ 3 / 2) hmem.2 hlt
    linarith [cos_three_halves_le]

/-- The polar angle is below `1/2` when the height is positive and its ratio
to the length exceeds `88/100`, stated on squares. -/
theorem polarAngle_lt_half (d : Vec3) (hy : 0 < d.y)
    (h1 : (88 / 100) ^ 2 * (d.x ^ 2 + d.y ^ 2 + d.z ^ 2) < d.y ^ 2) :
    d.polarAngle < (1 / 2 : ℝ) := by
  have hl := length_sq d
  have hlen := length_pos d hy
  have hy' : (0 : ℝ) < d.y := by exact_mod_cast hy
  have h1' : ((((88 / 100) ^ 2 * (d.x ^ 2 + d.y ^ 2 + d.z ^ 2) : ℚ)) : ℝ) < ((d.y ^ 2 : ℚ) : ℝ) := by
    exact_mod_cast h1
  push_cast at h1' hl
  rw [← hl] at h1'
  have hcos := cos_polarAngle d hy
  have hmem := polarAngle_mem d
  have hratio : (88 / 100 : ℝ) < (d.y : ℝ) / d.length := by
    rw [lt_div_iff₀ hlen]
    nlinarith
  by_contra hge
  push_neg at hge
  have := Real.cos_le_cos_of_nonneg_of_le_pi (by norm_num : (0 : ℝ) ≤ 1 / 2) hmem.2 hge
  linarith [cos_half_le]

theorem clamp_eq_self {lo hi v : ℝ} (h1 : lo ≤ v) (h2 : v ≤ hi) : clamp lo hi v = v := by
  unfold clamp
  rw [min_eq_right h2, max_eq_right h1]

/-! ## The viewpoint table -/

theorem isFinite_lit (q : ℚ) (h : |q| ≤ 2 ^ 1000) : isFinite (lit q) := by
  have hrep : Representable ((2 : ℚ) ^ 1000) := ⟨1, 1000, by norm_num, by norm_num, by norm_num⟩
  rw [abs_le] at h
  refine ⟨toDouble_idem q, ?_⟩
  have h1 : lit q ≤ 2 ^ 1000 := toDouble_le hrep h.2
  have h2 : -(2 : ℚ) ^ 1000 ≤ lit q := le_toDouble (representable_neg hrep) h.1
  have h3 : (2 : ℚ) ^ 1000 ≤ maxDouble := by unfold maxDouble; norm_num
  rw [abs_le]
  constructor <;> linarith

theorem isFinite_neg {q : ℚ} (h : isFinite q) : isFinite (-q) := by
  obtain ⟨h1, h2⟩ := h
  refine ⟨?_, by rwa [abs_neg]⟩
  have : Representable q := h1 ▸ representable_toDouble q
  exact toDouble_of_representable (representable_neg this)

theorem isFinite_lit_small (q : ℚ) (h0 : 0 ≤ q) (h : q ≤ 10) : isFinite (lit q) :=
  isFinite_lit q (by rw [abs_of_nonneg h0]; exact h.trans (by norm_num))

theorem satellitePointData_isFinite :
    satellitePointData.position.isFinite ∧ satellitePointData.lookAt.isFinite := by
  refine ⟨⟨?_, ?_, ?_⟩, ⟨?_, ?_, ?_⟩⟩
  · exact isFinite_lit_small _ (by norm_num) (by norm_num)
  · exact isFinite_lit_small _ (by norm_num) (by norm_num)
  · exact isFinite_lit_small _ (by norm_num) (by norm_num)
  · exact isFinite_lit_small _ (by norm_num) (by norm_num)
  · exact isFinite_lit_small _ (by norm_num) (by norm_num)
  · exact isFinite_neg (isFinite_lit_small _ (by norm_num) (by norm_num))

theorem machineGunPointData_isFinite :
    machineGunPointData.position.isFinite ∧ machineGunPointData.lookAt.isFinite := by
  refine ⟨⟨?_, ?_, ?_⟩, ⟨?_, ?_, ?_⟩⟩
  · exact isFinite_lit_small _ (by norm_num) (by norm_num)
  · exact isFinite_lit_small _ (by norm_num) (by norm_num)
  · exact isFinite_lit_small _ (by norm_num) (by norm_num)
  · exact isFinite_neg (isFinite_lit_small _ (by norm_num) (by norm_num))
  · exact isFinite_lit_small _ (by norm_num) (by norm_num)
  · exact isFinite_neg (isFinite_lit_small _ (by norm_num) (by norm_num))

theorem frontalPointData_isFinite :
    frontalPointData.position.isFinite ∧ frontalPointData.lookAt.isFinite := by
  refine ⟨⟨?_, ?_, ?_⟩, ⟨?_, ?_, ?_⟩⟩
  · exact isFinite_neg (isFinite_lit_small _ (by norm_num) (by norm_num))
  · exact isFinite_lit_small _ (by norm_num) (by norm_num)
  · exact isFinite_lit_small _ (by norm_num) (by norm_num)
  · exact isFinite_neg (isFinite_lit_small _ (by norm_num) (by norm_num))
  · exact isFinite_lit_small _ (by norm_num) (by norm_num)
  · exact isFinite_neg (isFinite_lit_small _ (by norm_num) (by norm_num))

theorem sidePodPointData_isFinite :
    sidePodPointData.position.isFinite ∧ sidePodPointData.lookAt.isFinite := by
  refine ⟨⟨?_, ?_, ?_⟩, ⟨?_, ?_, ?_⟩⟩
  · exact isFinite_neg (isFinite_lit_small _ (by norm_num) (by norm_num))
  · exact isFinite_lit_small _ (by norm_num) (by norm_num)
  · exact isFinite_lit_small _ (by norm_num) (by norm_num)
  · exact isFinite_neg (isFinite_lit_small _ (by norm_num) (by norm_num))
  · exact isFinite_lit_small _ (by norm_num) (by norm_num)
  · exact isFinite_neg (isFinite_lit_small _ (by norm_num) (by norm_num))

theorem airConditioningPointData_isFinite :
    airConditioningPointData.position.isFinite ∧ airConditioningPointData.lookAt.isFinite := by
  refine ⟨⟨?_, ?_, ?_⟩, ⟨?_, ?_, ?_⟩⟩
  · exact isFinite_neg (isFinite_lit_small _ (by norm_num) (by norm_num))
  · exact isFinite_lit_small _ (by norm_num) (by norm_num)
  · exact isFinite_neg (isFinite_lit_small _ (by norm_num) (by norm_num))
  · exact isFinite_neg (isFinite_lit_small _ (by norm_num) (by norm_num))
  · exact isFinite_lit_small _ (by norm_num) (by norm_num)
  · exact isFinite_neg (isFinite_lit_small _ (by norm_num) (by norm_num))

theorem warpDrivePointData_isFinite :
    warpDrivePointData.position.isFinite ∧ warpDrivePointData.lookAt.isFinite := by
  refine ⟨⟨?_, ?_, ?_⟩, ⟨?_, ?_, ?_⟩⟩
  · exact isFinite_neg (isFinite_lit_small _ (by norm_num) (by norm_num))
  · exact isFinite_lit_small _ (by norm_num) (by norm_num)
  · exact isFinite_neg (isFinite_lit_small _ (by norm_num) (by norm_num))
  · exact isFinite_neg (isFinite_lit_small _ (by norm_num) (by norm_num))
  · exact isFinite_lit_small _ (by norm_num) (by norm_num)
  · exact isFinite_neg (isFinite_lit_small _ (by norm_num) (by norm_num))

theorem getProperty_satellite :
    getProperty (some "satellite") = Value.point satellitePointData := by
  simp [getProperty, propertyKey, cameraTargetsAndPositions, List.lookup]

theorem getProperty_machineGun :
    getProperty (some "machineGun") = Value.point machineGunPointData := by
  simp [getProperty, propertyKey, cameraTargetsAndPositions, List.lookup]

theorem getProperty_frontal :
    getProperty (some "frontal") = Value.point frontalPointData := by
  simp [getProperty, propertyKey, cameraTargetsAndPositions, List.lookup]

theorem getProperty_sidePod :
    getProperty (some "sidePod") = Value.point sidePodPointData := by
  simp [getProperty, propertyKey, cameraTargetsAndPositions, List.lookup]

theorem getProperty_airConditioning :
    getProperty (some "airConditioning") = Value.point airConditioningPointData := by
  simp [getProperty, propertyKey, cameraTargetsAndPositions, List.lookup]

theorem getProperty_warpDrive :
    getProperty (some "warpDrive") = Value.point warpDrivePointData := by
  simp [getProperty, propertyKey, cameraTargetsAndPositions, List.lookup]

/-- C8. The table `cameraTargetsAndPositions` has exactly the six keys satellite,
machineGun, frontal, sidePod, airConditioning and warpDrive; the lookup of each
returns the record of the constant of the same name, coordinate by coordinate;
and every coordinate of every entry is a finite Number. -/
theorem cameraTargetsAndPositions_table :
    cameraTargetsAndPositions.map Prod.fst =
        ["satellite", "machineGun", "frontal", "sidePod", "airConditioning", "warpDrive"] ∧
      getProperty (some "satellite") = Value.point satellitePointData ∧
      getProperty (some "machineGun") = Value.point machineGunPointData ∧
      getProperty (some "frontal") = Value.point frontalPointData ∧
      getProperty (some "sidePod") = Value.point sidePodPointData ∧
      getProperty (some "airConditioning") = Value.point airConditioningPointData ∧
      getProperty (some "warpDrive") = Value.point warpDrivePointData ∧
      ∀ kp ∈ cameraTargetsAndPositions, kp.2.position.isFinite ∧ kp.2.lookAt.isFinite := by
  refine ⟨rfl, getProperty_satellite, getProperty_machineGun, getProperty_frontal,
    getProperty_sidePod, getProperty_airConditioning, getProperty_warpDrive, ?_⟩
  · intro kp hkp
    simp only [cameraTargetsAndPositions, List.mem_cons, List.mem_singleton, List.not_mem_nil,
      or_false] at hkp
    rcases hkp with rfl | rfl | rfl | rfl | rfl | rfl
    · exact satellitePointData_isFinite
    · exact machineGunPointData_isFinite
    · exact frontalPointData_isFinite
    · exact sidePodPointData_isFinite
    · exact airConditioningPointData_isFinite
    · exact warpDrivePointData_isFinite

/-! ## Orbit limits at the viewpoints -/

theorem withinLimits_of_squares (position target : Vec3)
    (hy : 0 < (offset position target).y)
    (h0 : (1 / 5 : ℚ) ^ 2 ≤ (offset position target).x ^ 2 + (offset position target).y ^ 2 +
      (offset position target).z ^ 2)
    (h1 : (offset position target).x ^ 2 + (offset position target).y ^ 2 +
      (offset position target).z ^ 2 ≤ (20 : ℚ) ^ 2)
    (h2 : (offset position target).y ^ 2 ≤ (7 / 8) ^ 2 * ((offset position target).x ^ 2 +
      (offset position target).y ^ 2 + (offset position target).z ^ 2))
    (h3 : (1 / 10) ^ 2 * ((offset position target).x ^ 2 +
      (offset position target).y ^ 2 + (offset position target).z ^ 2) ≤
      (offset position target).y ^ 2) :
    withinLimits { controlsSettings with target := target } position := by
  have hl := length_bounds (offset position target) (1 / 5) 20 (by norm_num) (by norm_num) h0 h1
  have hp := polarAngle_bounds (offset position target) hy h2 h3
  have hmin : ((lit 0.1 : ℚ) : ℝ) ≤ ((1 / 5 : ℚ) : ℝ) := by
    rw [lit_minDistance]; norm_num
  unfold withinLimits controlsSettings
  simp only
  rw [lit_half, lit_three_halves]
  refine ⟨hmin.trans hl.1, ?_, ?_, ?_⟩
  · have := hl.2; push_cast at this ⊢; exact this
  · have := hp.1; push_cast; norm_num at this ⊢; exact this
  · have := hp.2; push_cast; norm_num at this ⊢; exact this

theorem satellite_withinLimits :
    withinLimits { controlsSettings with target := satellitePointData.lookAt }
      satellitePointData.position := by
  apply withinLimits_of_squares <;> rw [satellitePointData_value] <;> simp only [offset] <;> norm_num

theorem machineGun_withinLimits :
    withinLimits { controlsSettings with target := machineGunPointData.lookAt }
      machineGunPointData.position := by
  apply withinLimits_of_squares <;> rw [machineGunPointData_value] <;> simp only [offset] <;> norm_num

theorem frontal_withinLimits :
    withinLimits { controlsSettings with target := frontalPointData.lookAt }
      frontalPointData.position := by
  apply withinLimits_of_squares <;> rw [frontalPointData_value] <;> simp only [offset] <;> norm_num

theorem sidePod_withinLimits :
    withinLimits { controlsSettings with target := sidePodPointData.lookAt }
      sidePodPointData.position := by
  apply withinLimits_of_squares <;> rw [sidePodPointData_value] <;> simp only [offset] <;> norm_num

theorem airConditioning_withinLimits :
    withinLimits { controlsSettings with target := airConditioningPointData.lookAt }
      airConditioningPointData.position := by
  apply withinLimits_of_squares <;> rw [airConditioningPointData_value] <;> simp only [offset] <;> norm_num

theorem warpDrive_withinLimits :
    withinLimits { controlsSettings with target := warpDrivePointData.lookAt }
      warpDrivePointData.position := by
  apply withinLimits_of_squares <;> rw [warpDrivePointData_value] <;> simp only [offset] <;> norm_num

/-- C9. Every one of the six viewpoints satisfies the orbit limits set by
`createControls`: with the controller target at the viewpoint's `lookAt`, the
distance from the viewpoint's position to the target lies between `minDistance`
and `maxDistance` and the polar angle of the offset lies between
`minPolarAngle` and `maxPolarAngle`, so clamping either quantity to its range
returns it unchanged. -/
theorem viewpoints_within_limits :
    ∀ kp ∈ cameraTargetsAndPositions,
      withinLimits { controlsSettings with target := kp.2.lookAt } kp.2.position ∧
      clamp (controlsSettings.minDistance : ℝ) (controlsSettings.maxDistance : ℝ)
          (offset kp.2.position kp.2.lookAt).length = (offset kp.2.position kp.2.lookAt).length ∧
      clamp (controlsSettings.minPolarAngle : ℝ) (controlsSettings.maxPolarAngle : ℝ)
          (offset kp.2.position kp.2.lookAt).polarAngle =
        (offset kp.2.position kp.2.lookAt).polarAngle := by
  intro kp hkp
  have key : withinLimits { controlsSettings with target := kp.2.lookAt } kp.2.position := by
    simp only [cameraTargetsAndPositions, List.mem_cons, List.mem_singleton, List.not_mem_nil,
      or_false] at hkp
    rcases hkp with rfl | rfl | rfl | rfl | rfl | rfl
    · exact satellite_withinLimits
    · exact machineGun_withinLimits
    · exact frontal_withinLimits
    · exact sidePod_withinLimits
    · exact airConditioning_withinLimits
    · exact warpDrive_withinLimits
  refine ⟨key, ?_, ?_⟩
  · obtain ⟨h1, h2, -, -⟩ := key
    exact clamp_eq_self h1 h2
  · obtain ⟨-, -, h3, h4⟩ := key
    exact clamp_eq_self h3 h4

/-- C9 at the satellite viewpoint. -/
theorem viewpoints_within_limits_witness :
    (("satellite", satellitePointData) : String × PointData) ∈ cameraTargetsAndPositions ∧
      withinLimits { controlsSettings with target := satellitePointData.lookAt }
        satellitePointData.position :=
  ⟨List.mem_cons_self _ _,
    (viewpoints_within_limits ("satellite", satellitePointData) (List.mem_cons_self _ _)).1⟩

/-! ## The initial placement -/

theorem initial_offset (innerWidth innerHeight : ℚ) :
    offset (createCamera innerWidth innerHeight).position controlsSettings.target =
      { x := 0, y := 10, z := 1 / 2 } := by
  unfold offset createCamera controlsSettings
  simp only
  rw [lit_half]
  norm_num

theorem initial_polarAngle_lt (innerWidth innerHeight : ℚ) :
    (offset (createCamera innerWidth innerHeight).position controlsSettings.target).polarAngle <
      (controlsSettings.minPolarAngle : ℝ) := by
  rw [initial_offset]
  have h := polarAngle_lt_half { x := 0, y := 10, z := 1 / 2 } (by norm_num) (by norm_num)
  have hmin : controlsSettings.minPolarAngle = 1 / 2 := by
    unfold controlsSettings
    simp only
    rw [lit_half]
    norm_num
  rw [hmin]
  push_cast
  exact h

/-- C10, as the code has it. At the placement made by `createCamera` and
`createControls`, camera at (0, 12, 0) and target at (0, 2, -0.5), the distance
from camera to target lies between `minDistance` and `maxDistance`, and the
polar angle of the offset is non-negative and strictly below `minPolarAngle`. -/
theorem initial_placement (innerWidth innerHeight : ℚ) :
    (controlsSettings.minDistance : ℝ) ≤
        (offset (createCamera innerWidth innerHeight).position controlsSettings.target).length ∧
      (offset (createCamera innerWidth innerHeight).position controlsSettings.target).length ≤
        (controlsSettings.maxDistance : ℝ) ∧
      0 ≤ (offset (createCamera innerWidth innerHeight).position
        controlsSettings.target).polarAngle ∧
      (offset (createCamera innerWidth innerHeight).position controlsSettings.target).polarAngle <
        (controlsSettings.minPolarAngle : ℝ) := by
  refine ⟨?_, ?_, (polarAngle_mem _).1, initial_polarAngle_lt innerWidth innerHeight⟩
  · rw [initial_offset]
    have hl := length_bounds { x := 0, y := 10, z := 1 / 2 } (1 / 5) 20 (by norm_num) (by norm_num)
      (by norm_num) (by norm_num)
    have hmin : ((controlsSettings.minDistance : ℚ) : ℝ) ≤ ((1 / 5 : ℚ) : ℝ) := by
      unfold controlsSettings
      simp only
      rw [lit_minDistance]
      norm_num
    exact hmin.trans hl.1
  · rw [initial_offset]
    have hl := length_bounds { x := 0, y := 10, z := 1 / 2 } (1 / 5) 20 (by norm_num) (by norm_num)
      (by norm_num) (by norm_num)
    have hmax : controlsSettings.maxDistance = 20 := rfl
    rw [hmax]
    exact hl.2

/-- C10, as the claim has it, fails: the initial placement is not within the
orbit limits set by `createControls`. -/
theorem initial_placement_not_within_limits :
    ¬ withinLimits controlsSettings (createCamera 800 600).position := by
  intro h
  obtain ⟨-, -, h3, -⟩ := h
  have := initial_polarAngle_lt 800 600
  linarith

/-! ## The resize listener -/

/-- C6. For every viewport size with positive height, the resize listener sets
the camera aspect to the quotient of width by height and the drawing-surface
size to the width and height, leaves the camera position, field of view, near
and far planes and the controller target unchanged, and handling the same size
twice gives the same state as handling it once. -/
theorem onResize_effect (innerWidth innerHeight : ℚ) (_h : 0 < innerHeight) (w : World) :
    (onResize innerWidth innerHeight w).camera.aspect = fdiv innerWidth innerHeight ∧
      (onResize innerWidth innerHeight w).renderer.width = innerWidth ∧
      (onResize innerWidth innerHeight w).renderer.height = innerHeight ∧
      (onResize innerWidth innerHeight w).camera.position = w.camera.position ∧
      (onResize innerWidth innerHeight w).camera.fov = w.camera.fov ∧
      (onResize innerWidth innerHeight w).camera.near = w.camera.near ∧
      (onResize innerWidth innerHeight w).camera.far = w.camera.far ∧
      (onResize innerWidth innerHeight w).controls.target = w.controls.target ∧
      onResize innerWidth innerHeight (onResize innerWidth innerHeight w) =
        onResize innerWidth innerHeight w :=
  ⟨rfl, rfl, rfl, rfl, rfl, rfl, rfl, rfl, rfl⟩

/-- C6 at a window of 800 by 600 in the initial state. -/
theorem onResize_effect_witness :
    (0 : ℚ) < 600 ∧
      (onResize 800 600 (init stillOrbit 1024 768 ⟨"", "block"⟩)).camera.aspect = fdiv 800 600 ∧
      onResize 800 600 (onResize 800 600 (init stillOrbit 1024 768 ⟨"", "block"⟩)) =
        onResize 800 600 (init stillOrbit 1024 768 ⟨"", "block"⟩) :=
  ⟨by norm_num,
    (onResize_effect 800 600 (by norm_num) (init stillOrbit 1024 768 ⟨"", "block"⟩)).1,
    (onResize_effect 800 600 (by norm_num) (init stillOrbit 1024 768 ⟨"", "block"⟩)).2.2.2.2.2.2.2.2⟩

/-! ## The click listener on an unknown identifier -/

theorem lookup_eq_none (key : String) (h : key ∉ viewpointKeys) :
    cameraTargetsAndPositions.lookup key = none := by
  simp only [viewpointKeys, List.mem_cons, List.mem_singleton, List.not_mem_nil, or_false,
    not_or] at h
  obtain ⟨h1, h2, h3, h4, h5, h6⟩ := h
  have e1 : (key == "satellite") = false := beq_eq_false_iff_ne.2 h1
  have e2 : (key == "machineGun") = false := beq_eq_false_iff_ne.2 h2
  have e3 : (key == "frontal") = false := beq_eq_false_iff_ne.2 h3
  have e4 : (key == "sidePod") = false := beq_eq_false_iff_ne.2 h4
  have e5 : (key == "airConditioning") = false := beq_eq_false_iff_ne.2 h5
  have e6 : (key == "warpDrive") = false := beq_eq_false_iff_ne.2 h6
  simp only [cameraTargetsAndPositions, List.lookup, e1, e2, e3, e4, e5, e6]

theorem onClick_of_unknown (objectId : Option String) (h : propertyKey objectId ∉ viewpointKeys)
    (now₁ now₂ : ℚ) (w : World) :
    onClick objectId now₁ now₂ w =
      { world := { w with constructed := w.constructed + 1 }, error := some "TypeError" } := by
  unfold onClick getProperty
  rw [lookup_eq_none _ h]
  by_cases hp : propertyKey objectId ∈ objectPrototypeKeys
  · simp [hp]
  · simp [hp]

/-- C7, as the code has it. For every identifier that is not one of the six
keys, a missing id attribute included, the click listener throws a TypeError
when it reads through the lookup result. By then it has constructed one Tween
object, the receiver of `.to`, and nothing else has changed: no tween is
registered and the camera and the controller, hence the camera position and
the controller target, are as before. -/
theorem onClick_unknown (objectId : Option String) (h : propertyKey objectId ∉ viewpointKeys)
    (now₁ now₂ : ℚ) (w : World) :
    (onClick objectId now₁ now₂ w).error = some "TypeError" ∧
      (onClick objectId now₁ now₂ w).world = { w with constructed := w.constructed + 1 } := by
  rw [onClick_of_unknown objectId h]
  exact ⟨rfl, rfl⟩

/-- C7 at a click on an element without an id attribute, in the initial state. -/
theorem onClick_unknown_witness :
    propertyKey none ∉ viewpointKeys ∧
      (onClick none 0 0 (init stillOrbit 1024 768 ⟨"", "block"⟩)).error = some "TypeError" ∧
      (onClick none 0 0 (init stillOrbit 1024 768 ⟨"", "block"⟩)).world.tweens = [] :=
  ⟨by decide,
    (onClick_unknown none (by decide) 0 0 (init stillOrbit 1024 768 ⟨"", "block"⟩)).1,
    by rw [(onClick_unknown none (by decide) 0 0 (init stillOrbit 1024 768 ⟨"", "block"⟩)).2]; rfl⟩

/-- C7, as the claim has it, fails: a click with the unknown identifier
`cockpit` in the initial state ends in an error, and one Tween object has been
constructed before it. -/
theorem onClick_unknown_constructs :
    ¬ ((onClick (some "cockpit") 0 0 (init stillOrbit 1024 768 ⟨"", "block"⟩)).error ≠ none ∧
        (onClick (some "cockpit") 0 0
            (init stillOrbit 1024 768 ⟨"", "block"⟩)).world.constructed =
          (init stillOrbit 1024 768 ⟨"", "block"⟩).constructed) := by
  rintro ⟨-, h⟩
  rw [onClick_of_unknown (some "cockpit") (by decide) 0 0 _] at h
  simp at h

/-! ## Tweens -/

theorem representable_one : Representable 1 := ⟨1, 0, by norm_num, by norm_num, by norm_num⟩

theorem representable_two : Representable 2 := ⟨2, 0, by norm_num, by norm_num, by norm_num⟩

theorem representable_2000 : Representable 2000 :=
  ⟨2000, 0, by norm_num, by norm_num, by norm_num⟩

theorem toDouble_one : toDouble 1 = 1 := toDouble_of_representable representable_one

theorem quadraticOut_one : quadraticOut 1 = 1 := by
  unfold quadraticOut fmul fsub
  norm_num
  rw [toDouble_one, toDouble_one]

theorem interpolate_one (start stop : ℚ) : interpolate start stop 1 = settle start stop := by
  unfold interpolate settle fmul fsub
  rw [mul_one, toDouble_idem]

theorem fdiv_fsub_ge_one (start time : ℚ) (h : 2000 ≤ time - start) :
    1 ≤ fdiv (fsub time start) 2000 := by
  unfold fdiv fsub
  have h1 : (2000 : ℚ) ≤ toDouble (time - start) := le_toDouble representable_2000 h
  apply le_toDouble representable_one
  rw [le_div_iff₀ (by norm_num)]
  linarith

theorem elapsed_eq_one (t : Tween) (time : ℚ) (hd : t.duration = 2000)
    (h : 2000 ≤ time - t.startTime) : t.elapsed time = 1 := by
  have h1 := fdiv_fsub_ge_one t.startTime time h
  unfold Tween.elapsed
  rw [hd]
  split_ifs with hc
  · rfl
  · push_neg at hc
    exact le_antisymm hc.2 h1

theorem elapsed_ne_one (t : Tween) (time : ℚ) (hd : t.duration = 2000)
    (h : unfinished t.startTime time) : t.elapsed time ≠ 1 := by
  unfold unfinished at h
  unfold Tween.elapsed
  rw [hd]
  split_ifs with hc
  · rcases hc with hc | hc
    · norm_num at hc
    · linarith
  · exact ne_of_lt h

theorem current_of_elapsed_one (t : Tween) (time : ℚ) (h : t.elapsed time = 1) :
    t.current time = t.valuesStart.settle t.valuesEnd := by
  unfold Tween.current Vec3.settle
  rw [h, quadraticOut_one, interpolate_one, interpolate_one, interpolate_one]

/-- A frame in which no tween is registered changes nothing. -/
theorem animate_idle (lib : OrbitLibrary) (time : ℚ) (w : World) (h : w.tweens = []) :
    animate lib time w = w := by
  unfold animate tweenUpdate
  rw [h]
  simp only [List.foldl_nil]
  rw [← h]

theorem frames_idle (lib : OrbitLibrary) (times : List ℚ) (w : World) (h : w.tweens = []) :
    frames lib times w = w := by
  unfold frames
  induction times with
  | nil => rfl
  | cons t ts ih =>
    rw [List.foldl_cons, animate_idle lib t w h]
    exact ih

theorem frames_append (lib : OrbitLibrary) (xs ys : List ℚ) (w : World) :
    frames lib (xs ++ ys) w = frames lib ys (frames lib xs w) := by
  unfold frames
  rw [List.foldl_append]

/-- The two tweens a click registers, the position tween first. -/
theorem onClick_point (objectId : Option String) (p : PointData)
    (hp : getProperty objectId = Value.point p) (now₁ now₂ : ℚ) (w : World) :
    (onClick objectId now₁ now₂ w).error = none ∧
      (onClick objectId now₁ now₂ w).world =
        { w with
          constructed := w.constructed + 2
          tweens := w.tweens ++
            [{ object := TweenObject.cameraPosition, valuesStart := w.camera.position,
               valuesEnd := p.position, duration := 2000, startTime := now₁,
               updatesControls := false },
             { object := TweenObject.controlsTarget, valuesStart := w.controls.target,
               valuesEnd := p.lookAt, duration := 2000, startTime := now₂,
               updatesControls := true }] } := by
  unfold onClick
  rw [hp]
  simp [startTween]

theorem onClick_world (objectId : Option String) (p : PointData)
    (hp : getProperty objectId = Value.point p) (now₁ now₂ : ℚ) (w : World) (hw : w.tweens = []) :
    (onClick objectId now₁ now₂ w).world =
      { w with
        constructed := w.constructed + 2
        tweens := [positionTween w.camera.position p now₁, targetTween w.controls.target p now₂] } := by
  rw [(onClick_point objectId p hp now₁ now₂ w).2, hw]
  rfl

theorem update_position (lib : OrbitLibrary) (time : ℚ) (w : World) (start : Vec3)
    (p : PointData) (now : ℚ) (h : ¬ time < now) :
    Tween.update lib time w (positionTween start p now) =
      ((positionTween start p now).write time w,
        decide ((positionTween start p now).elapsed time ≠ 1)) := by
  have h' : ¬ time < (positionTween start p now).startTime := h
  unfold Tween.update
  rw [if_neg h']
  rfl

theorem update_target (lib : OrbitLibrary) (time : ℚ) (w : World) (start : Vec3)
    (p : PointData) (now : ℚ) (h : ¬ time < now) :
    Tween.update lib time w (targetTween start p now) =
      (controlsUpdate lib ((targetTween start p now).write time w),
        decide ((targetTween start p now).elapsed time ≠ 1)) := by
  have h' : ¬ time < (targetTween start p now).startTime := h
  unfold Tween.update
  rw [if_neg h']
  rfl

theorem update_early (lib : OrbitLibrary) (time : ℚ) (w : World) (t : Tween)
    (h : time < t.startTime) : Tween.update lib time w t = (w, true) := by
  unfold Tween.update
  rw [if_pos h]

theorem update_flag (lib : OrbitLibrary) (time : ℚ) (w w' : World) (t : Tween) :
    (Tween.update lib time w t).2 = (Tween.update lib time w' t).2 := by
  unfold Tween.update
  split_ifs <;> rfl

theorem update_target_running (lib : OrbitLibrary) (time : ℚ) (w : World) (start : Vec3)
    (p : PointData) (now : ℚ) (h : (targetTween start p now).elapsed time ≠ 1) :
    (Tween.update lib time w (targetTween start p now)).2 = true := by
  by_cases h1 : time < now
  · rw [update_early lib time w _ h1]
  · rw [update_target lib time w start p now h1]
    exact decide_eq_true h

/-- A frame at which the second tween stays registered keeps the tweens of the
click registered: both, or the second alone when the first has finished. -/
theorem animate_registered (lib : OrbitLibrary) (time : ℚ) (w : World) (P T : Tween)
    (hw : Registered P T w) (hT : ∀ w', (Tween.update lib time w' T).2 = true) :
    Registered P T (animate lib time w) := by
  rcases hw with ht | ht
  · unfold Registered animate tweenUpdate
    rw [ht]
    simp only [List.foldl_cons, List.foldl_nil, hT, if_true]
    by_cases hP : (Tween.update lib time w P).2 = true
    · left
      simp [hP]
    · right
      simp [hP]
  · unfold Registered animate tweenUpdate
    rw [ht]
    simp only [List.foldl_cons, List.foldl_nil, hT, if_true]
    right
    simp

theorem frames_registered (lib : OrbitLibrary) (s₁ s₂ : Vec3) (p : PointData)
    (now₁ now₂ : ℚ) (times : List ℚ) (h : ∀ t ∈ times, unfinished now₂ t) (w : World)
    (hw : Registered (positionTween s₁ p now₁) (targetTween s₂ p now₂) w) :
    Registered (positionTween s₁ p now₁) (targetTween s₂ p now₂) (frames lib times w) := by
  induction times generalizing w with
  | nil => exact hw
  | cons t ts ih =>
    have ht := h t (List.mem_cons_self _ _)
    have step := animate_registered lib t w _ _ hw
      (fun w' => update_target_running lib t w' s₂ p now₂ (elapsed_ne_one _ t rfl ht))
    have := ih (fun t' ht' => h t' (List.mem_cons_of_mem _ ht')) _ step
    unfold frames at this ⊢
    rw [List.foldl_cons]
    exact this

/-- The last step of the target tween: it writes its settled value to the
controller target, calls the controller update on the state that write leaves,
and is unregistered. -/
theorem update_target_complete (lib : OrbitLibrary) (time : ℚ) (w : World) (s₂ : Vec3)
    (p : PointData) (now₂ : ℚ) (h2 : 2000 ≤ time - now₂) :
    ((targetTween s₂ p now₂).write time w).controls.target = s₂.settle p.lookAt ∧
      ((targetTween s₂ p now₂).write time w).trace =
        w.trace ++ [Event.targetWritten (s₂.settle p.lookAt)] ∧
      Tween.update lib time w (targetTween s₂ p now₂) =
        (controlsUpdate lib ((targetTween s₂ p now₂).write time w), false) := by
  have e2 : (targetTween s₂ p now₂).elapsed time = 1 := elapsed_eq_one _ time rfl h2
  have c2 : (targetTween s₂ p now₂).current time = s₂.settle p.lookAt :=
    current_of_elapsed_one _ time e2
  have d2 : decide ((targetTween s₂ p now₂).elapsed time ≠ 1) = false :=
    decide_eq_false (by rw [e2]; simp)
  refine ⟨?_, ?_, ?_⟩
  · show (targetTween s₂ p now₂).current time = _
    exact c2
  · show w.trace ++ [Event.targetWritten ((targetTween s₂ p now₂).current time)] = _
    rw [c2]
  · rw [update_target lib time w s₂ p now₂ (by linarith), d2]

/-- The frame at which the target tween reaches full progress, the position
tween having started no later: whatever was still registered is unregistered,
and the state is the controller update of the state left by the last write of
the target tween. -/
theorem animate_complete (lib : OrbitLibrary) (time : ℚ) (w : World)
    (s₁ s₂ : Vec3) (p : PointData) (now₁ now₂ : ℚ)
    (hw : Registered (positionTween s₁ p now₁) (targetTween s₂ p now₂) w)
    (hnow : now₁ ≤ now₂) (h2 : 2000 ≤ time - now₂) :
    ∃ before : World,
      before.controls.target = s₂.settle p.lookAt ∧
      (∃ earlier, before.trace = earlier ++ [Event.targetWritten (s₂.settle p.lookAt)]) ∧
      animate lib time w = { controlsUpdate lib before with tweens := [] } := by
  rcases hw with ht | ht
  · have e1 : (positionTween s₁ p now₁).elapsed time = 1 :=
      elapsed_eq_one _ time rfl (by show 2000 ≤ time - now₁; linarith)
    have d1 : decide ((positionTween s₁ p now₁).elapsed time ≠ 1) = false :=
      decide_eq_false (by rw [e1]; simp)
    obtain ⟨a, b, c⟩ := update_target_complete lib time
      ((positionTween s₁ p now₁).write time w) s₂ p now₂ h2
    refine ⟨(targetTween s₂ p now₂).write time ((positionTween s₁ p now₁).write time w),
      a, ⟨_, b⟩, ?_⟩
    unfold animate tweenUpdate
    rw [ht]
    simp only [List.foldl_cons, List.foldl_nil]
    rw [update_position lib time w s₁ p now₁ (by linarith), d1]
    simp only [Bool.false_eq_true, if_false]
    rw [c]
    simp only [Bool.false_eq_true, if_false]
  · obtain ⟨a, b, c⟩ := update_target_complete lib time w s₂ p now₂ h2
    refine ⟨(targetTween s₂ p now₂).write time w, a, ⟨_, b⟩, ?_⟩
    unfold animate tweenUpdate
    rw [ht]
    simp only [List.foldl_cons, List.foldl_nil]
    rw [c]
    simp only [Bool.false_eq_true, if_false]

/-! ## Where a tween settles -/

theorem toDouble_rel (q : ℚ) : |toDouble q - q| ≤ 2 ^ (-53 : ℤ) * |q| + 2 ^ (-1075 : ℤ) := by
  rcases eq_or_ne q 0 with rfl | hq
  · rw [toDouble_zero]; simp; positivity
  have h := toDouble_sub_le q
  have hqpos : 0 < |q| := abs_pos.2 hq
  have hlow : (2 : ℚ) ^ (Int.log 2 |q|) ≤ |q| := by
    have := Int.zpow_log_le_self (b := 2) (by norm_num) hqpos
    exact_mod_cast this
  have hcase : (2 : ℚ) ^ ulpExp q ≤ 2 ^ (-52 : ℤ) * |q| + 2 ^ (-1074 : ℤ) := by
    unfold ulpExp
    rcases max_cases (Int.log 2 |q| - 52) (-1074) with ⟨h1, _⟩ | ⟨h1, _⟩
    · rw [h1, sub_eq_add_neg, zpow_add₀ (by norm_num)]
      have : (0 : ℚ) < 2 ^ (-1074 : ℤ) := by positivity
      have h52 : (0 : ℚ) < 2 ^ (-52 : ℤ) := by positivity
      nlinarith
    · rw [h1]
      have : (0 : ℚ) ≤ 2 ^ (-52 : ℤ) * |q| := by positivity
      linarith
  have e1 : (2 : ℚ) ^ (-53 : ℤ) = 2 ^ (-52 : ℤ) / 2 := by norm_num
  have e2 : (2 : ℚ) ^ (-1075 : ℤ) = 2 ^ (-1074 : ℤ) / 2 := by
    rw [show (-1075 : ℤ) = -1074 + -1 from by norm_num, zpow_add₀ (by norm_num)]
    norm_num
  rw [e1, e2]
  have e3 : (2 : ℚ) ^ (-52 : ℤ) / 2 * |q| + 2 ^ (-1074 : ℤ) / 2 =
      (2 ^ (-52 : ℤ) * |q| + 2 ^ (-1074 : ℤ)) / 2 := by ring
  rw [e3]
  exact h.trans ((div_le_div_iff_of_pos_right (by norm_num)).2 hcase)

theorem settle_eq_of_exact (start stop : ℚ) (h1 : Representable (stop - start))
    (h2 : Representable stop) : settle start stop = stop := by
  unfold settle fadd fsub
  rw [toDouble_of_representable h1]
  have : start + (stop - start) = stop := by ring
  rw [this, toDouble_of_representable h2]

theorem settle_error (start stop : ℚ) (h : Representable stop) :
    |settle start stop - stop| ≤ 2 ^ (-52 : ℤ) * |stop - start| + 2 ^ (-1074 : ℤ) := by
  unfold settle fadd fsub
  have h1 := toDouble_rel (stop - start)
  have h2 := toDouble_nearest (start + toDouble (stop - start)) h
  have e : stop - (start + toDouble (stop - start)) = -(toDouble (stop - start) - (stop - start)) := by
    ring
  rw [e, abs_neg] at h2
  have h3 : toDouble (start + toDouble (stop - start)) - stop =
      (toDouble (start + toDouble (stop - start)) - (start + toDouble (stop - start))) +
        (toDouble (stop - start) - (stop - start)) := by ring
  have e1 : (2 : ℚ) ^ (-52 : ℤ) = 2 * 2 ^ (-53 : ℤ) := by norm_num
  have e2 : (2 : ℚ) ^ (-1074 : ℤ) = 2 * 2 ^ (-1075 : ℤ) := by
    rw [show (-1074 : ℤ) = -1075 + 1 from by norm_num, zpow_add₀ (by norm_num)]
    norm_num
  rw [h3, e1, e2]
  calc |toDouble (start + toDouble (stop - start)) - (start + toDouble (stop - start)) +
        (toDouble (stop - start) - (stop - start))|
      ≤ |toDouble (start + toDouble (stop - start)) - (start + toDouble (stop - start))| +
        |toDouble (stop - start) - (stop - start)| := abs_add _ _
    _ ≤ |toDouble (stop - start) - (stop - start)| +
        |toDouble (stop - start) - (stop - start)| := by linarith
    _ ≤ (2 ^ (-53 : ℤ) * |stop - start| + 2 ^ (-1075 : ℤ)) +
        (2 ^ (-53 : ℤ) * |stop - start| + 2 ^ (-1075 : ℤ)) := add_le_add h1 h1
    _ = 2 * 2 ^ (-53 : ℤ) * |stop - start| + 2 * 2 ^ (-1075 : ℤ) := by ring

theorem representable_of_isFinite {q : ℚ} (h : isFinite q) : Representable q :=
  h.1 ▸ representable_toDouble q

theorem getProperty_point (objectId : Option String) (p : PointData)
    (hp : getProperty objectId = Value.point p) :
    p.position.isFinite ∧ p.lookAt.isFinite := by
  by_cases hk : propertyKey objectId ∈ viewpointKeys
  · have hmem : ∃ q, cameraTargetsAndPositions.lookup (propertyKey objectId) = some q ∧
        q.position.isFinite ∧ q.lookAt.isFinite := by
      simp only [viewpointKeys, List.mem_cons, List.mem_singleton, List.not_mem_nil,
        or_false] at hk
      rcases hk with h | h | h | h | h | h <;> rw [h]
      · exact ⟨_, by simp [cameraTargetsAndPositions, List.lookup], satellitePointData_isFinite⟩
      · exact ⟨_, by simp [cameraTargetsAndPositions, List.lookup], machineGunPointData_isFinite⟩
      · exact ⟨_, by simp [cameraTargetsAndPositions, List.lookup], frontalPointData_isFinite⟩
      · exact ⟨_, by simp [cameraTargetsAndPositions, List.lookup], sidePodPointData_isFinite⟩
      · exact ⟨_, by simp [cameraTargetsAndPositions, List.lookup],
          airConditioningPointData_isFinite⟩
      · exact ⟨_, by simp [cameraTargetsAndPositions, List.lookup], warpDrivePointData_isFinite⟩
    obtain ⟨q, hq, hfin⟩ := hmem
    unfold getProperty at hp
    rw [hq] at hp
    simp only [Value.point.injEq] at hp
    rw [← hp]
    exact hfin
  · unfold getProperty at hp
    rw [lookup_eq_none _ hk] at hp
    split_ifs at hp

theorem point_representable (objectId : Option String) (p : PointData)
    (hp : getProperty objectId = Value.point p) :
    p.position.Representable ∧ p.lookAt.Representable := by
  obtain ⟨⟨a, b, c⟩, ⟨d, e, f⟩⟩ := getProperty_point objectId p hp
  exact ⟨⟨representable_of_isFinite a, representable_of_isFinite b, representable_of_isFinite c⟩,
    ⟨representable_of_isFinite d, representable_of_isFinite e, representable_of_isFinite f⟩⟩

/-- A click on a viewpoint entry with no animation in flight, followed by
frames: once a frame comes 2000 ms or more after the start of the target tween,
earlier frames having left that tween unfinished, the run ends in the
controller update of the state left by the last write of the target tween,
with no tween registered. -/
theorem run_complete (lib : OrbitLibrary) (objectId : Option String) (p : PointData)
    (hp : getProperty objectId = Value.point p) (now₁ now₂ : ℚ) (hnow : now₁ ≤ now₂)
    (w : World) (hw : w.tweens = [])
    (pre post : List ℚ) (τ : ℚ) (hpre : ∀ t ∈ pre, unfinished now₂ t)
    (h2 : 2000 ≤ τ - now₂) :
    ∃ before : World,
      before.controls.target = w.controls.target.settle p.lookAt ∧
      (∃ earlier, before.trace =
        earlier ++ [Event.targetWritten (w.controls.target.settle p.lookAt)]) ∧
      frames lib (pre ++ τ :: post) (onClick objectId now₁ now₂ w).world =
        { controlsUpdate lib before with tweens := [] } := by
  have hstart : Registered (positionTween w.camera.position p now₁)
      (targetTween w.controls.target p now₂) (onClick objectId now₁ now₂ w).world := by
    rw [onClick_world objectId p hp now₁ now₂ w hw]
    exact Or.inl rfl
  have hmid := frames_registered lib w.camera.position w.controls.target p now₁ now₂
    pre hpre _ hstart
  obtain ⟨before, a, b, c⟩ := animate_complete lib τ _ w.camera.position
    w.controls.target p now₁ now₂ hmid hnow h2
  refine ⟨before, a, b, ?_⟩
  rw [frames_append]
  show frames lib post (animate lib τ _) = _
  rw [c]
  exact frames_idle lib post _ rfl
/-! ## A click on a viewpoint entry, followed by frames -/

theorem unfinished_1000 : unfinished 0 1000 := by
  unfold unfinished fdiv fsub
  have h1 : toDouble (1000 - 0) = 1000 := by
    rw [sub_zero]
    exact toDouble_of_representable ⟨1000, 0, by norm_num, by norm_num, by norm_num⟩
  have h2 : toDouble (1000 / 2000) = 1 / 2 := by
    have := toDouble_exact 1 (-1) (by norm_num) (by norm_num)
    norm_num at this ⊢
    exact this
  rw [h1, h2]
  norm_num

theorem settle_vec_eq_of_exact (start stop : Vec3) (hs : stop.Representable)
    (hd : (offset stop start).Representable) : start.settle stop = stop := by
  obtain ⟨a, b, c⟩ := hs
  obtain ⟨d, e, f⟩ := hd
  unfold Vec3.settle
  rw [settle_eq_of_exact _ _ d a, settle_eq_of_exact _ _ e b, settle_eq_of_exact _ _ f c]

/-- From the sidePod viewpoint's `lookAt` to the airConditioning one, the `x`
written at full progress is -0.03259431926139933, and the viewpoint's is
-0.03259431926139941. -/
theorem settle_sidePod_airConditioning_lookAt :
    (sidePodPointData.lookAt.settle airConditioningPointData.lookAt).x =
        -(146791764080033 / 2 ^ 52) ∧
      airConditioningPointData.lookAt.x = -(1174334112640267 / 2 ^ 55) := by
  have e1 : sidePodPointData.lookAt.x = -(2719073522648709 / 2 ^ 51) := by
    show -lit 1.2075112121972915 = _
    rw [lit_sidePod_lookAt_x]
  have e2 : airConditioningPointData.lookAt.x = -(1174334112640267 / 2 ^ 55) := by
    show -lit 0.03259431926139941 = _
    rw [lit_airConditioning_lookAt_x]
  refine ⟨?_, e2⟩
  show settle sidePodPointData.lookAt.x airConditioningPointData.lookAt.x = _
  rw [e1, e2, settle_sidePod_airConditioning_x]

/-- C2, as the code has it. For every instance of the controller library, every
viewpoint identifier and every state with no animation in flight: after a click
on that entry, the position tween started no later than the target tween, and
frames of which one comes 2000 ms or more after the target tween started,
earlier frames leaving that tween unfinished, no tween stays registered and the
state is the one `controls.update()` leaves when called on a state `before` in
which the controller target holds the settled value and whose last event is the
write of that value to the target. The controller target afterwards is what
that call leaves. The coordinates of the settled value are
`start + (end - start)` computed in double arithmetic; each is within
`2 ^ (-52) * |end - start| + 2 ^ (-1074)` of the viewpoint's `lookAt`
coordinate, and the settled value is `lookAt` whenever the three differences
`end - start` are representable. -/
theorem click_settles_target (lib : OrbitLibrary) (objectId : Option String) (p : PointData)
    (hp : getProperty objectId = Value.point p) (now₁ now₂ : ℚ) (hnow : now₁ ≤ now₂)
    (w : World) (hw : w.tweens = [])
    (pre post : List ℚ) (τ : ℚ) (hpre : ∀ t ∈ pre, unfinished now₂ t)
    (h2 : 2000 ≤ τ - now₂) :
    (∃ before : World,
        before.controls.target = w.controls.target.settle p.lookAt ∧
        (∃ earlier, before.trace =
          earlier ++ [Event.targetWritten (w.controls.target.settle p.lookAt)]) ∧
        frames lib (pre ++ τ :: post) (onClick objectId now₁ now₂ w).world =
          { controlsUpdate lib before with tweens := [] }) ∧
      |(w.controls.target.settle p.lookAt).x - p.lookAt.x| ≤
        2 ^ (-52 : ℤ) * |p.lookAt.x - w.controls.target.x| + 2 ^ (-1074 : ℤ) ∧
      |(w.controls.target.settle p.lookAt).y - p.lookAt.y| ≤
        2 ^ (-52 : ℤ) * |p.lookAt.y - w.controls.target.y| + 2 ^ (-1074 : ℤ) ∧
      |(w.controls.target.settle p.lookAt).z - p.lookAt.z| ≤
        2 ^ (-52 : ℤ) * |p.lookAt.z - w.controls.target.z| + 2 ^ (-1074 : ℤ) ∧
      ((offset p.lookAt w.controls.target).Representable →
        w.controls.target.settle p.lookAt = p.lookAt) := by
  obtain ⟨-, ⟨a, b, c⟩⟩ := point_representable objectId p hp
  exact ⟨run_complete lib objectId p hp now₁ now₂ hnow w hw pre post τ hpre h2,
    settle_error _ _ a, settle_error _ _ b, settle_error _ _ c,
    settle_vec_eq_of_exact _ _ ⟨a, b, c⟩⟩

/-- C2 at a click on `airConditioning` with the controller target at the
sidePod viewpoint's `lookAt`, frames at 1000, 2000 and 3000 ms, and the library
instance that leaves the target where it is. -/
theorem click_settles_target_witness :
    getProperty (some "airConditioning") = Value.point airConditioningPointData ∧
      (0 : ℚ) ≤ 0 ∧
      (worldAt sidePodPointData.position sidePodPointData.lookAt).tweens = [] ∧
      (∀ t ∈ [(1000 : ℚ)], unfinished 0 t) ∧
      (2000 : ℚ) ≤ 2000 - 0 ∧
      (frames stillOrbit ([1000] ++ 2000 :: [3000])
          (onClick (some "airConditioning") 0 0
            (worldAt sidePodPointData.position sidePodPointData.lookAt)).world).controls.target =
        sidePodPointData.lookAt.settle airConditioningPointData.lookAt :=
  ⟨getProperty_airConditioning, le_refl 0, rfl,
    fun t ht => by
      rw [List.mem_singleton] at ht
      rw [ht]
      exact unfinished_1000,
    by norm_num,
    by
      obtain ⟨before, a, -, c⟩ :=
        (click_settles_target stillOrbit (some "airConditioning") airConditioningPointData
          getProperty_airConditioning 0 0 (le_refl 0)
          (worldAt sidePodPointData.position sidePodPointData.lookAt)
          rfl [1000] [3000] 2000
          (fun t ht => by
            rw [List.mem_singleton] at ht
            rw [ht]
            exact unfinished_1000)
          (by norm_num)).1
      rw [c]
      exact a⟩

/-- C2, as the claim has it, fails: with the controller target at the sidePod
viewpoint's `lookAt`, a click on `airConditioning` and a frame 2000 ms later,
the last write of the target tween puts -0.03259431926139933 in the target's
`x`, 12 units in the last place off the viewpoint's -0.03259431926139941. With
the library instance that leaves the target where it is, the target ends off
the airConditioning `lookAt`; and so it does with every instance of the library
whose update call after that write moves the `x` of the target by less than
those 12 units. -/
theorem click_target_not_exact :
    (frames stillOrbit [2000]
        (onClick (some "airConditioning") 0 0
          (worldAt sidePodPointData.position sidePodPointData.lookAt)).world).controls.target ≠
      airConditioningPointData.lookAt ∧
    ∀ lib : OrbitLibrary, ∃ before : World,
      before.controls.target.x = -(146791764080033 / 2 ^ 52) ∧
      airConditioningPointData.lookAt.x = -(1174334112640267 / 2 ^ 55) ∧
      frames lib [2000]
          (onClick (some "airConditioning") 0 0
            (worldAt sidePodPointData.position sidePodPointData.lookAt)).world =
        { controlsUpdate lib before with tweens := [] } ∧
      (|(controlsUpdate lib before).controls.target.x - before.controls.target.x| < 3 / 2 ^ 55 →
        (frames lib [2000]
          (onClick (some "airConditioning") 0 0
            (worldAt sidePodPointData.position sidePodPointData.lookAt)).world).controls.target ≠
        airConditioningPointData.lookAt) := by
  have run := fun lib : OrbitLibrary =>
    run_complete lib (some "airConditioning") airConditioningPointData
      getProperty_airConditioning 0 0 (le_refl 0)
      (worldAt sidePodPointData.position sidePodPointData.lookAt)
      rfl [] [] 2000 (fun t ht => absurd ht (List.not_mem_nil t)) (by norm_num)
  obtain ⟨e1, e2⟩ := settle_sidePod_airConditioning_lookAt
  have robust : ∀ lib : OrbitLibrary, ∃ before : World,
      before.controls.target.x = -(146791764080033 / 2 ^ 52) ∧
      airConditioningPointData.lookAt.x = -(1174334112640267 / 2 ^ 55) ∧
      frames lib [2000]
          (onClick (some "airConditioning") 0 0
            (worldAt sidePodPointData.position sidePodPointData.lookAt)).world =
        { controlsUpdate lib before with tweens := [] } ∧
      (|(controlsUpdate lib before).controls.target.x - before.controls.target.x| < 3 / 2 ^ 55 →
        (frames lib [2000]
          (onClick (some "airConditioning") 0 0
            (worldAt sidePodPointData.position sidePodPointData.lookAt)).world).controls.target ≠
        airConditioningPointData.lookAt) := by
    intro lib
    obtain ⟨before, a, -, c⟩ := run lib
    rw [List.nil_append] at c
    have ax : before.controls.target.x = -(146791764080033 / 2 ^ 52) := by
      rw [a]
      exact e1
    refine ⟨before, ax, e2, c, ?_⟩
    intro hclose hc
    rw [c] at hc
    have hx : (controlsUpdate lib before).controls.target.x =
        airConditioningPointData.lookAt.x := congrArg Vec3.x hc
    rw [hx, ax, e2] at hclose
    norm_num at hclose
    rw [abs_lt] at hclose
    norm_num at hclose
  refine ⟨?_, robust⟩
  obtain ⟨before, -, -, -, h⟩ := robust stillOrbit
  refine h ?_
  show |before.controls.target.x - before.controls.target.x| < 3 / 2 ^ 55
  rw [sub_self, abs_zero]
  positivity

/-! ## Rounding error of the interpolation -/

theorem mul_error (a a' b b' : ℚ) :
    |a' * b' - a * b| ≤ |a' - a| * |b'| + |a| * |b' - b| := by
  have e : a' * b' - a * b = (a' - a) * b' + a * (b' - b) := by ring
  rw [e]
  calc |(a' - a) * b' + a * (b' - b)| ≤ |(a' - a) * b'| + |a * (b' - b)| := abs_add _ _
    _ = |a' - a| * |b'| + |a| * |b' - b| := by rw [abs_mul, abs_mul]

/-- The rounding error with the two constants as numerals. -/
theorem toDouble_err (q : ℚ) : |toDouble q - q| ≤ |q| / 2 ^ 53 + 1 / 2 ^ 1075 := by
  have h := toDouble_rel q
  have e1 : (2 : ℚ) ^ (-53 : ℤ) = 1 / 2 ^ 53 := by norm_num
  have e2 : (2 : ℚ) ^ (-1075 : ℤ) = 1 / 2 ^ 1075 := by
    rw [zpow_neg, one_div]
    norm_cast
  rw [e1, e2] at h
  calc |toDouble q - q| ≤ 1 / 2 ^ 53 * |q| + 1 / 2 ^ 1075 := h
    _ = |q| / 2 ^ 53 + 1 / 2 ^ 1075 := by ring

theorem toDouble_nonneg {q : ℚ} (h : 0 ≤ q) : 0 ≤ toDouble q :=
  le_toDouble ⟨0, 0, by norm_num, by norm_num, by norm_num⟩ h

theorem quadraticOut_error (k : ℚ) (h0 : 0 ≤ k) (h1 : k ≤ 1) :
    |quadraticOut k - easeExact k| ≤ 1 / 2 ^ 50 ∧ 0 ≤ quadraticOut k ∧ quadraticOut k ≤ 2 := by
  obtain ⟨η, hη⟩ : ∃ η : ℚ, η = 1 / 2 ^ 1075 := ⟨_, rfl⟩
  have hη0 : 0 < η := by rw [hη]; positivity
  have hη1 : η ≤ 1 / 2 ^ 53 := by
    rw [hη]
    apply one_div_le_one_div_of_le (by positivity)
    exact pow_le_pow_right₀ (by norm_num) (by norm_num)
  unfold quadraticOut easeExact fmul fsub
  obtain ⟨c, hc⟩ : ∃ c : ℚ, c = toDouble (2 - k) := ⟨_, rfl⟩
  have hc1 : 1 ≤ c := by rw [hc]; exact le_toDouble representable_one (by linarith)
  have hc2 : c ≤ 2 := by rw [hc]; exact toDouble_le representable_two (by linarith)
  have hce : |c - (2 - k)| ≤ 2 / 2 ^ 53 + η := by
    have := toDouble_err (2 - k)
    rw [← hc, ← hη, abs_of_nonneg (by linarith : (0 : ℚ) ≤ 2 - k)] at this
    linarith
  rw [← hc]
  have hkc0 : 0 ≤ k * c := by positivity
  have hkc2 : k * c ≤ 2 := by nlinarith
  have hE := toDouble_err (k * c)
  rw [← hη, abs_of_nonneg hkc0] at hE
  have hprod : |k * c - k * (2 - k)| ≤ 2 / 2 ^ 53 + η := by
    have e : k * c - k * (2 - k) = k * (c - (2 - k)) := by ring
    rw [e, abs_mul, abs_of_nonneg h0]
    calc k * |c - (2 - k)| ≤ 1 * |c - (2 - k)| :=
          mul_le_mul_of_nonneg_right h1 (abs_nonneg _)
      _ ≤ 2 / 2 ^ 53 + η := by linarith
  refine ⟨?_, toDouble_nonneg hkc0, toDouble_le representable_two hkc2⟩
  have e : toDouble (k * c) - k * (2 - k) = (toDouble (k * c) - k * c) + (k * c - k * (2 - k)) := by
    ring
  rw [e]
  calc |toDouble (k * c) - k * c + (k * c - k * (2 - k))|
      ≤ |toDouble (k * c) - k * c| + |k * c - k * (2 - k)| := abs_add _ _
    _ ≤ (k * c / 2 ^ 53 + η) + (2 / 2 ^ 53 + η) := add_le_add hE hprod
    _ ≤ 1 / 2 ^ 50 := by
      have : k * c / 2 ^ 53 ≤ 2 / 2 ^ 53 := by
        apply div_le_div_of_nonneg_right hkc2 (by positivity)
      norm_num at this hη1 ⊢
      linarith

theorem easeExact_bounds (k : ℚ) (h0 : 0 ≤ k) (h1 : k ≤ 1) :
    0 ≤ easeExact k ∧ easeExact k ≤ 1 := by
  unfold easeExact
  constructor <;> nlinarith

theorem easeExact_mono (j k : ℚ) (hjk : j ≤ k) (h1 : k ≤ 1) :
    easeExact j ≤ easeExact k := by
  unfold easeExact
  nlinarith

theorem interpolate_error (start stop k : ℚ) (h0 : 0 ≤ k) (h1 : k ≤ 1) :
    |interpolate start stop (quadraticOut k) - interpolateExact start stop k| ≤
      (|start| + |stop - start|) / 2 ^ 49 + 1 / 2 ^ 1072 := by
  obtain ⟨η, hη⟩ : ∃ η : ℚ, η = 1 / 2 ^ 1075 := ⟨_, rfl⟩
  have hη0 : 0 < η := by rw [hη]; positivity
  have hη1 : η ≤ 1 / 2 ^ 53 := by
    rw [hη]
    apply one_div_le_one_div_of_le (by positivity)
    exact pow_le_pow_right₀ (by norm_num) (by norm_num)
  have hη8 : 8 * η = 1 / 2 ^ 1072 := by
    rw [hη]
    norm_num
  obtain ⟨hEe, hE0, hE2⟩ := quadraticOut_error k h0 h1
  obtain ⟨he0, he1⟩ := easeExact_bounds k h0 h1
  unfold interpolate interpolateExact fadd fmul fsub
  generalize quadraticOut k = E at hEe hE0 hE2 ⊢
  generalize easeExact k = ek at hEe he0 he1 ⊢
  obtain ⟨d, hd⟩ : ∃ d : ℚ, d = stop - start := ⟨_, rfl⟩
  rw [← hd]
  obtain ⟨a, ha⟩ : ∃ a : ℚ, a = |d| := ⟨_, rfl⟩
  have ha0 : 0 ≤ a := by rw [ha]; exact abs_nonneg _
  obtain ⟨D, hD⟩ : ∃ D : ℚ, D = toDouble d := ⟨_, rfl⟩
  rw [← hD]
  have hDd : |D - d| ≤ a / 2 ^ 53 + η := by
    have := toDouble_err d
    rwa [← hD, ← hη, ← ha] at this
  have hDabs : |D| ≤ 2 * a + η := by
    have : |D| ≤ |D - d| + |d| := by
      have := abs_add (D - d) d
      simpa using this
    rw [← ha] at this
    have h53 : a / 2 ^ 53 ≤ a := div_le_self ha0 (by norm_num)
    linarith
  have hEabs : |E| ≤ 2 := by rw [abs_of_nonneg hE0]; exact hE2
  -- the product
  have hDE : |D * E - d * ek| ≤ 10 * a / 2 ^ 53 + 2 * η := by
    have h := mul_error d D ek E
    have t1 : |D - d| * |E| ≤ (a / 2 ^ 53 + η) * 2 :=
      mul_le_mul hDd hEabs (abs_nonneg _) (by positivity)
    have t2 : |d| * |E - ek| ≤ a * (1 / 2 ^ 50) := by
      rw [← ha]
      exact mul_le_mul_of_nonneg_left hEe ha0
    calc |D * E - d * ek| ≤ |D - d| * |E| + |d| * |E - ek| := h
      _ ≤ (a / 2 ^ 53 + η) * 2 + a * (1 / 2 ^ 50) := add_le_add t1 t2
      _ = 10 * a / 2 ^ 53 + 2 * η := by ring
  have hDEabs : |D * E| ≤ 4 * a + 2 * η := by
    rw [abs_mul]
    calc |D| * |E| ≤ (2 * a + η) * 2 := mul_le_mul hDabs hEabs (abs_nonneg _) (by positivity)
      _ = 4 * a + 2 * η := by ring
  obtain ⟨M, hM⟩ : ∃ M : ℚ, M = toDouble (D * E) := ⟨_, rfl⟩
  rw [← hM]
  have hMerr : |M - D * E| ≤ 4 * a / 2 ^ 53 + 2 * η := by
    have := toDouble_err (D * E)
    rw [← hM, ← hη] at this
    have h2 : |D * E| / 2 ^ 53 ≤ (4 * a + 2 * η) / 2 ^ 53 :=
      div_le_div_of_nonneg_right hDEabs (by positivity)
    have h3 : (4 * a + 2 * η) / 2 ^ 53 ≤ 4 * a / 2 ^ 53 + η := by
      have : 2 * η / 2 ^ 53 ≤ η := by
        rw [div_le_iff₀ (by positivity)]
        nlinarith
      have e : (4 * a + 2 * η) / 2 ^ 53 = 4 * a / 2 ^ 53 + 2 * η / 2 ^ 53 := by ring
      rw [e]
      linarith
    linarith
  have hMd : |M - d * ek| ≤ 14 * a / 2 ^ 53 + 4 * η := by
    have e : M - d * ek = (M - D * E) + (D * E - d * ek) := by ring
    rw [e]
    calc |M - D * E + (D * E - d * ek)| ≤ |M - D * E| + |D * E - d * ek| := abs_add _ _
      _ ≤ (4 * a / 2 ^ 53 + 2 * η) + (10 * a / 2 ^ 53 + 2 * η) := add_le_add hMerr hDE
      _ = 14 * a / 2 ^ 53 + 4 * η := by ring
  have hdek : |d * ek| ≤ a := by
    rw [abs_mul, ← ha, abs_of_nonneg he0]
    calc a * ek ≤ a * 1 := mul_le_mul_of_nonneg_left he1 ha0
      _ = a := mul_one a
  have hMabs : |M| ≤ 2 * a + 4 * η := by
    have : |M| ≤ |M - d * ek| + |d * ek| := by
      have := abs_add (M - d * ek) (d * ek)
      simpa using this
    have h53 : 14 * a / 2 ^ 53 ≤ a := by
      rw [div_le_iff₀ (by positivity)]
      nlinarith
    linarith
  have hW := toDouble_err (start + M)
  rw [← hη] at hW
  have hsM : |start + M| ≤ |start| + (2 * a + 4 * η) := (abs_add _ _).trans (by linarith)
  have hW2 : |toDouble (start + M) - (start + M)| ≤ |start| / 2 ^ 53 + 2 * a / 2 ^ 53 + 2 * η := by
    have h2 : |start + M| / 2 ^ 53 ≤ (|start| + (2 * a + 4 * η)) / 2 ^ 53 :=
      div_le_div_of_nonneg_right hsM (by positivity)
    have h3 : 4 * η / 2 ^ 53 ≤ η := by
      rw [div_le_iff₀ (by positivity)]
      nlinarith
    have e : (|start| + (2 * a + 4 * η)) / 2 ^ 53 =
        |start| / 2 ^ 53 + 2 * a / 2 ^ 53 + 4 * η / 2 ^ 53 := by ring
    rw [e] at h2
    linarith
  have e : toDouble (start + M) - (start + d * ek) =
      (toDouble (start + M) - (start + M)) + (M - d * ek) := by ring
  rw [e, ← hη8]
  have hs0 : 0 ≤ |start| := abs_nonneg _
  calc |toDouble (start + M) - (start + M) + (M - d * ek)|
      ≤ |toDouble (start + M) - (start + M)| + |M - d * ek| := abs_add _ _
    _ ≤ (|start| / 2 ^ 53 + 2 * a / 2 ^ 53 + 2 * η) + (14 * a / 2 ^ 53 + 4 * η) :=
        add_le_add hW2 hMd
    _ ≤ (|start| + a) / 2 ^ 49 + 8 * η := by
      have e1 : (|start| + a) / 2 ^ 49 = 16 * |start| / 2 ^ 53 + 16 * a / 2 ^ 53 := by ring
      rw [e1]
      have : |start| / 2 ^ 53 ≤ 16 * |start| / 2 ^ 53 :=
        div_le_div_of_nonneg_right (by linarith) (by positivity)
      have e2 : (|start| / 2 ^ 53 + 2 * a / 2 ^ 53 + 2 * η) + (14 * a / 2 ^ 53 + 4 * η) =
          |start| / 2 ^ 53 + 16 * a / 2 ^ 53 + 6 * η := by ring
      rw [e2]
      linarith
    _ = (|start| + |d|) / 2 ^ 49 + 8 * η := by rw [ha]

/-! ## Progress of the position tween -/

theorem current_get (t : Tween) (time : ℚ) (axis : Axis) :
    (t.current time).get axis =
      interpolate (t.valuesStart.get axis) (t.valuesEnd.get axis) (quadraticOut (t.elapsed time)) := by
  cases axis <;> rfl

theorem elapsed_error (t : Tween) (time : ℚ) (hd : t.duration = 2000)
    (h0 : t.startTime ≤ time) (h1 : time ≤ t.startTime + 2000) :
    0 ≤ t.elapsed time ∧ t.elapsed time ≤ 1 ∧
      |t.elapsed time - (time - t.startTime) / 2000| ≤ 1 / 2 ^ 51 := by
  obtain ⟨η, hη⟩ : ∃ η : ℚ, η = 1 / 2 ^ 1075 := ⟨_, rfl⟩
  have hη0 : 0 < η := by rw [hη]; positivity
  have hη1 : η ≤ 1 / 2 ^ 53 := by
    rw [hη]
    apply one_div_le_one_div_of_le (by positivity)
    exact pow_le_pow_right₀ (by norm_num) (by norm_num)
  obtain ⟨x, hx⟩ : ∃ x : ℚ, x = time - t.startTime := ⟨_, rfl⟩
  have hx0 : 0 ≤ x := by rw [hx]; linarith
  have hx1 : x ≤ 2000 := by rw [hx]; linarith
  obtain ⟨X, hX⟩ : ∃ X : ℚ, X = toDouble x := ⟨_, rfl⟩
  have hX0 : 0 ≤ X := by rw [hX]; exact toDouble_nonneg hx0
  have hX1 : X ≤ 2000 := by rw [hX]; exact toDouble_le representable_2000 hx1
  have hXe : |X - x| ≤ 2000 / 2 ^ 53 + η := by
    have := toDouble_err x
    rw [← hX, ← hη, abs_of_nonneg hx0] at this
    have : x / 2 ^ 53 ≤ 2000 / 2 ^ 53 := div_le_div_of_nonneg_right hx1 (by positivity)
    linarith
  obtain ⟨v, hv⟩ : ∃ v : ℚ, v = toDouble (X / 2000) := ⟨_, rfl⟩
  have hy0 : 0 ≤ X / 2000 := by positivity
  have hy1 : X / 2000 ≤ 1 := by rw [div_le_iff₀ (by norm_num)]; linarith
  have hv0 : 0 ≤ v := by rw [hv]; exact toDouble_nonneg hy0
  have hv1 : v ≤ 1 := by rw [hv]; exact toDouble_le representable_one hy1
  have hve : |v - X / 2000| ≤ 1 / 2 ^ 53 + η := by
    have := toDouble_err (X / 2000)
    rw [← hv, ← hη, abs_of_nonneg hy0] at this
    have : X / 2000 / 2 ^ 53 ≤ 1 / 2 ^ 53 := div_le_div_of_nonneg_right hy1 (by positivity)
    linarith
  have hel : t.elapsed time = v := by
    unfold Tween.elapsed fdiv fsub
    rw [hd, ← hx, ← hX, ← hv]
    rw [if_neg]
    push_neg
    exact ⟨by norm_num, hv1⟩
  rw [hel, ← hx]
  refine ⟨hv0, hv1, ?_⟩
  have e : v - x / 2000 = (v - X / 2000) + (X - x) / 2000 := by ring
  have h3 : |(X - x) / 2000| ≤ (2000 / 2 ^ 53 + η) / 2000 := by
    rw [abs_div, abs_of_pos (by norm_num : (0 : ℚ) < 2000)]
    exact div_le_div_of_nonneg_right hXe (by norm_num)
  rw [e]
  calc |v - X / 2000 + (X - x) / 2000| ≤ |v - X / 2000| + |(X - x) / 2000| := abs_add _ _
    _ ≤ (1 / 2 ^ 53 + η) + (2000 / 2 ^ 53 + η) / 2000 := add_le_add hve h3
    _ ≤ 1 / 2 ^ 51 := by
      norm_num at hη1 ⊢
      linarith

theorem interpolateExact_lipschitz (start stop j k : ℚ) (hj0 : 0 ≤ j) (hj1 : j ≤ 1)
    (hk0 : 0 ≤ k) (hk1 : k ≤ 1) :
    |interpolateExact start stop j - interpolateExact start stop k| ≤ 2 * |stop - start| * |j - k| := by
  unfold interpolateExact easeExact
  have e : start + (stop - start) * (j * (2 - j)) - (start + (stop - start) * (k * (2 - k))) =
      (stop - start) * ((j - k) * (2 - j - k)) := by ring
  rw [e, abs_mul, abs_mul]
  have h2 : |2 - j - k| ≤ 2 := by
    rw [abs_le]
    constructor <;> linarith
  calc |stop - start| * (|j - k| * |2 - j - k|) ≤ |stop - start| * (|j - k| * 2) := by
        apply mul_le_mul_of_nonneg_left _ (abs_nonneg _)
        exact mul_le_mul_of_nonneg_left h2 (abs_nonneg _)
    _ = 2 * |stop - start| * |j - k| := by ring

theorem interpolateExact_between (start stop j k : ℚ) (hj0 : 0 ≤ j) (hjk : j ≤ k) (hk1 : k ≤ 1) :
    (start ≤ stop → start ≤ interpolateExact start stop j ∧
        interpolateExact start stop j ≤ interpolateExact start stop k ∧
        interpolateExact start stop k ≤ stop) ∧
      (stop ≤ start → stop ≤ interpolateExact start stop k ∧
        interpolateExact start stop k ≤ interpolateExact start stop j ∧
        interpolateExact start stop j ≤ start) := by
  have m := easeExact_mono j k hjk hk1
  obtain ⟨a0, -⟩ := easeExact_bounds j hj0 (hjk.trans hk1)
  obtain ⟨-, b1⟩ := easeExact_bounds k (hj0.trans hjk) hk1
  unfold interpolateExact
  generalize easeExact j = ej at m a0
  generalize easeExact k = ek at m b1
  constructor
  · intro h
    have hd : 0 ≤ stop - start := by linarith
    refine ⟨by nlinarith, by nlinarith, by nlinarith⟩
  · intro h
    have hd : 0 ≤ start - stop := by linarith
    refine ⟨by nlinarith, by nlinarith, by nlinarith⟩

theorem written_error (start : Vec3) (p : PointData) (now time : ℚ) (axis : Axis)
    (h0 : now ≤ time) (h1 : time ≤ now + 2000) :
    |((positionTween start p now).current time).get axis -
        interpolateExact (start.get axis) (p.position.get axis) ((time - now) / 2000)| ≤
      (|start.get axis| + |p.position.get axis - start.get axis|) / 2 ^ 48 + 1 / 2 ^ 1072 := by
  obtain ⟨k0, k1, ke⟩ := elapsed_error (positionTween start p now) time rfl h0 h1
  have hκ0 : 0 ≤ (time - now) / 2000 := by
    apply div_nonneg _ (by norm_num)
    linarith
  have hκ1 : (time - now) / 2000 ≤ 1 := by
    rw [div_le_iff₀ (by norm_num)]
    linarith
  rw [current_get]
  show |interpolate (start.get axis) (p.position.get axis)
      (quadraticOut ((positionTween start p now).elapsed time)) - _| ≤ _
  have ke' : |(positionTween start p now).elapsed time - (time - now) / 2000| ≤ 1 / 2 ^ 51 := ke
  generalize (positionTween start p now).elapsed time = k at k0 k1 ke' ⊢
  have a := interpolate_error (start.get axis) (p.position.get axis) k k0 k1
  have b := interpolateExact_lipschitz (start.get axis) (p.position.get axis) k
    ((time - now) / 2000) k0 k1 hκ0 hκ1
  generalize (time - now) / 2000 = κ at ke' b ⊢
  generalize start.get axis = s at a b ⊢
  generalize p.position.get axis = e at a b ⊢
  have hd0 : 0 ≤ |e - s| := abs_nonneg _
  have hs0 : 0 ≤ |s| := abs_nonneg _
  have b' : |interpolateExact s e k - interpolateExact s e κ| ≤ 2 * |e - s| * (1 / 2 ^ 51) :=
    b.trans (mul_le_mul_of_nonneg_left ke' (by positivity))
  have e1 : interpolate s e (quadraticOut k) - interpolateExact s e κ =
      (interpolate s e (quadraticOut k) - interpolateExact s e k) +
        (interpolateExact s e k - interpolateExact s e κ) := by ring
  rw [e1]
  calc |interpolate s e (quadraticOut k) - interpolateExact s e k +
        (interpolateExact s e k - interpolateExact s e κ)|
      ≤ |interpolate s e (quadraticOut k) - interpolateExact s e k| +
        |interpolateExact s e k - interpolateExact s e κ| := abs_add _ _
    _ ≤ ((|s| + |e - s|) / 2 ^ 49 + 1 / 2 ^ 1072) + 2 * |e - s| * (1 / 2 ^ 51) := add_le_add a b'
    _ ≤ (|s| + |e - s|) / 2 ^ 48 + 1 / 2 ^ 1072 := by
      have e2 : (|s| + |e - s|) / 2 ^ 48 = 2 * ((|s| + |e - s|) / 2 ^ 49) := by ring
      have e3 : 2 * |e - s| * (1 / 2 ^ 51) = |e - s| / 2 ^ 50 := by ring
      have h4 : |e - s| / 2 ^ 50 ≤ (|s| + |e - s|) / 2 ^ 49 := by
        rw [div_le_div_iff₀ (by positivity) (by positivity)]
        nlinarith
      rw [e2, e3]
      linarith

/-- C3, as the code has it. For a position tween, clock readings
`now ≤ t₁ ≤ t₂ ≤ now + 2000` and each axis: in exact arithmetic the eased
progress `k * (2 - k)` at `k = (t₂ - now) / 2000` is at least the progress at
`k = (t₁ - now) / 2000` and both lie in `[0, 1]`, so the exact interpolant
`start + (end - start) * e(k)` moves monotonically from the start value to the
viewpoint's value and stays between them; the coordinate the tween writes is
that interpolant evaluated in double arithmetic and lies within
`(|start| + |end - start|) / 2 ^ 48 + 1 / 2 ^ 1072` of it. -/
theorem positionTween_tracks (start : Vec3) (p : PointData) (now t₁ t₂ : ℚ) (axis : Axis)
    (h0 : now ≤ t₁) (h12 : t₁ ≤ t₂) (h2 : t₂ ≤ now + 2000) :
    easeExact ((t₁ - now) / 2000) ≤ easeExact ((t₂ - now) / 2000) ∧
      0 ≤ easeExact ((t₁ - now) / 2000) ∧ easeExact ((t₂ - now) / 2000) ≤ 1 ∧
      (start.get axis ≤ p.position.get axis →
        start.get axis ≤
            interpolateExact (start.get axis) (p.position.get axis) ((t₁ - now) / 2000) ∧
          interpolateExact (start.get axis) (p.position.get axis) ((t₁ - now) / 2000) ≤
            interpolateExact (start.get axis) (p.position.get axis) ((t₂ - now) / 2000) ∧
          interpolateExact (start.get axis) (p.position.get axis) ((t₂ - now) / 2000) ≤
            p.position.get axis) ∧
      (p.position.get axis ≤ start.get axis →
        p.position.get axis ≤
            interpolateExact (start.get axis) (p.position.get axis) ((t₂ - now) / 2000) ∧
          interpolateExact (start.get axis) (p.position.get axis) ((t₂ - now) / 2000) ≤
            interpolateExact (start.get axis) (p.position.get axis) ((t₁ - now) / 2000) ∧
          interpolateExact (start.get axis) (p.position.get axis) ((t₁ - now) / 2000) ≤
            start.get axis) ∧
      |((positionTween start p now).current t₁).get axis -
          interpolateExact (start.get axis) (p.position.get axis) ((t₁ - now) / 2000)| ≤
        (|start.get axis| + |p.position.get axis - start.get axis|) / 2 ^ 48 + 1 / 2 ^ 1072 ∧
      |((positionTween start p now).current t₂).get axis -
          interpolateExact (start.get axis) (p.position.get axis) ((t₂ - now) / 2000)| ≤
        (|start.get axis| + |p.position.get axis - start.get axis|) / 2 ^ 48 + 1 / 2 ^ 1072 := by
  have hj0 : 0 ≤ (t₁ - now) / 2000 := by
    apply div_nonneg _ (by norm_num)
    linarith
  have hjk : (t₁ - now) / 2000 ≤ (t₂ - now) / 2000 :=
    div_le_div_of_nonneg_right (by linarith) (by norm_num)
  have hk1 : (t₂ - now) / 2000 ≤ 1 := by
    rw [div_le_iff₀ (by norm_num)]
    linarith
  obtain ⟨up, down⟩ := interpolateExact_between (start.get axis) (p.position.get axis) _ _
    hj0 hjk hk1
  exact ⟨easeExact_mono _ _ hjk hk1, (easeExact_bounds _ hj0 (hjk.trans hk1)).1,
    (easeExact_bounds _ (hj0.trans hjk) hk1).2, up, down,
    written_error start p now t₁ axis h0 (by linarith),
    written_error start p now t₂ axis (by linarith) h2⟩

/-- C3 for the tween from the satellite viewpoint to airConditioning, started at
clock reading 0, at 1000 and 2000 ms, on the `x` axis. -/
theorem positionTween_tracks_witness :
    (0 : ℚ) ≤ 1000 ∧ (1000 : ℚ) ≤ 2000 ∧ (2000 : ℚ) ≤ 0 + 2000 ∧
      easeExact ((1000 - 0) / 2000) ≤ easeExact ((2000 - 0) / 2000) ∧
      |((positionTween satellitePointData.position airConditioningPointData 0).current 2000).get
            Axis.x -
          interpolateExact (satellitePointData.position.get Axis.x)
            (airConditioningPointData.position.get Axis.x) ((2000 - 0) / 2000)| ≤
        (|satellitePointData.position.get Axis.x| +
            |airConditioningPointData.position.get Axis.x -
              satellitePointData.position.get Axis.x|) / 2 ^ 48 + 1 / 2 ^ 1072 :=
  ⟨by norm_num, by norm_num, by norm_num,
    (positionTween_tracks satellitePointData.position airConditioningPointData 0 1000 2000 Axis.x
      (by norm_num) (by norm_num) (by norm_num)).1,
    (positionTween_tracks satellitePointData.position airConditioningPointData 0 1000 2000 Axis.x
      (by norm_num) (by norm_num) (by norm_num)).2.2.2.2.2.2⟩

/-- C3, as the claim has it, fails: the tween from the satellite viewpoint to
airConditioning, started at clock reading 0, writes at 2000 ms an `x` below the
viewpoint's `x`, which is itself below the start value: the coordinate has
passed the viewpoint's value. -/
theorem positionTween_overshoots :
    ((positionTween satellitePointData.position airConditioningPointData 0).current 2000).x <
        airConditioningPointData.position.x ∧
      airConditioningPointData.position.x < satellitePointData.position.x := by
  have hel : (positionTween satellitePointData.position airConditioningPointData 0).elapsed 2000 = 1 :=
    elapsed_eq_one _ 2000 rfl (by show (2000 : ℚ) ≤ 2000 - 0; norm_num)
  have hcur := current_of_elapsed_one _ 2000 hel
  have e1 : satellitePointData.position.x = 2517890047095051 / 2 ^ 50 := lit_satellite_position_x
  have e2 : airConditioningPointData.position.x = -(5116552086925631 / 2 ^ 53) := by
    show -lit 0.5680513933598731 = _
    rw [lit_airConditioning_position_x]
  have hx : ((positionTween satellitePointData.position airConditioningPointData 0).current 2000).x =
      settle satellitePointData.position.x airConditioningPointData.position.x :=
    congrArg Vec3.x hcur
  rw [hx, e1, e2, settle_satellite_airConditioning_x]
  norm_num

/-! ## The progress callback -/

theorem percent_error (loaded total : ℚ) (h0 : 0 ≤ loaded) (h1 : loaded ≤ total) (ht : 0 < total) :
    0 ≤ fmul (fdiv loaded total) 100 ∧
      |fmul (fdiv loaded total) 100 - 100 * loaded / total| ≤ 1 / 2 ^ 45 := by
  obtain ⟨η, hη⟩ : ∃ η : ℚ, η = 1 / 2 ^ 1075 := ⟨_, rfl⟩
  have hη0 : 0 < η := by rw [hη]; positivity
  have hη1 : η ≤ 1 / 2 ^ 60 := by
    rw [hη]
    apply one_div_le_one_div_of_le (by positivity)
    exact pow_le_pow_right₀ (by norm_num) (by norm_num)
  unfold fmul fdiv
  obtain ⟨q, hq⟩ : ∃ q : ℚ, q = loaded / total := ⟨_, rfl⟩
  have hq0 : 0 ≤ q := by rw [hq]; positivity
  have hq1 : q ≤ 1 := by rw [hq, div_le_iff₀ ht]; linarith
  have hgoal : 100 * loaded / total = 100 * q := by rw [hq]; ring
  rw [hgoal, ← hq]
  obtain ⟨a, ha⟩ : ∃ a : ℚ, a = toDouble q := ⟨_, rfl⟩
  rw [← ha]
  have ha0 : 0 ≤ a := by rw [ha]; exact toDouble_nonneg hq0
  have ha1 : a ≤ 1 := by rw [ha]; exact toDouble_le representable_one hq1
  have hae : |a - q| ≤ 1 / 2 ^ 53 + η := by
    have := toDouble_err q
    rw [← ha, ← hη, abs_of_nonneg hq0] at this
    have : q / 2 ^ 53 ≤ 1 / 2 ^ 53 := div_le_div_of_nonneg_right hq1 (by positivity)
    linarith
  have hp0 : 0 ≤ a * 100 := by positivity
  have hye := toDouble_err (a * 100)
  rw [← hη, abs_of_nonneg hp0] at hye
  refine ⟨toDouble_nonneg hp0, ?_⟩
  have e : toDouble (a * 100) - 100 * q = (toDouble (a * 100) - a * 100) + 100 * (a - q) := by ring
  have h100 : |100 * (a - q)| ≤ 100 * (1 / 2 ^ 53 + η) := by
    rw [abs_mul, abs_of_pos (by norm_num : (0 : ℚ) < 100)]
    exact mul_le_mul_of_nonneg_left hae (by norm_num)
  rw [e]
  calc |toDouble (a * 100) - a * 100 + 100 * (a - q)|
      ≤ |toDouble (a * 100) - a * 100| + |100 * (a - q)| := abs_add _ _
    _ ≤ (a * 100 / 2 ^ 53 + η) + 100 * (1 / 2 ^ 53 + η) := add_le_add hye h100
    _ ≤ 1 / 2 ^ 45 := by
      have : a * 100 / 2 ^ 53 ≤ 100 / 2 ^ 53 := by
        apply div_le_div_of_nonneg_right _ (by positivity)
        linarith
      norm_num at this hη1 ⊢
      linarith

theorem hundredths_error (y : ℚ) (hy : 0 ≤ y) :
    |(hundredths y : ℚ) - 100 * y| ≤ 1 / 2 := by
  unfold hundredths
  rw [abs_of_nonneg hy]
  have hf0 : 0 ≤ ⌊y * 100 + 1 / 2⌋ := Int.floor_nonneg.2 (by positivity)
  have hcast : ((⌊y * 100 + 1 / 2⌋.toNat : ℕ) : ℚ) = (⌊y * 100 + 1 / 2⌋ : ℚ) := by
    have := Int.toNat_of_nonneg hf0
    exact_mod_cast this
  rw [hcast]
  have h1 := Int.floor_le (y * 100 + 1 / 2)
  have h2 := Int.lt_floor_add_one (y * 100 + 1 / 2)
  rw [abs_le]
  constructor <;> linarith

theorem toFixed2_of_nonneg (y : ℚ) (hy : 0 ≤ y) :
    toFixed2 y = toString (hundredths y / 100) ++ "." ++ twoDigits (hundredths y % 100) := by
  unfold toFixed2
  rw [if_neg (not_lt.2 hy)]
  simp

theorem nearest_hundredth (l t n : ℕ) (y : ℚ) (ht : 0 < t) (hbig : t < 2 ^ 37)
    (hn : |(n : ℚ) - 100 * y| ≤ 1 / 2) (hy : |y - 100 * (l : ℚ) / t| ≤ 1 / 2 ^ 45) :
    |(n : ℚ) - 10000 * (l : ℚ) / t| ≤ 1 / 2 := by
  have htq : (0 : ℚ) < t := by exact_mod_cast ht
  have hbound : |(n : ℚ) - 10000 * (l : ℚ) / t| ≤ 1 / 2 + 100 / 2 ^ 45 := by
    have e : (n : ℚ) - 10000 * (l : ℚ) / t = ((n : ℚ) - 100 * y) + 100 * (y - 100 * (l : ℚ) / t) := by
      ring
    rw [e]
    have h100 : |100 * (y - 100 * (l : ℚ) / t)| ≤ 100 * (1 / 2 ^ 45) := by
      rw [abs_mul, abs_of_pos (by norm_num : (0 : ℚ) < 100)]
      exact mul_le_mul_of_nonneg_left hy (by norm_num)
    calc |(n : ℚ) - 100 * y + 100 * (y - 100 * (l : ℚ) / t)|
        ≤ |(n : ℚ) - 100 * y| + |100 * (y - 100 * (l : ℚ) / t)| := abs_add _ _
      _ ≤ 1 / 2 + 100 / 2 ^ 45 := by linarith
  by_contra hgt
  push_neg at hgt
  -- twice the distance, times `t`, is an integer above `t`
  have hscale : (n : ℚ) - 10000 * (l : ℚ) / t = ((2 * (n : ℤ) * t - 20000 * l : ℤ) : ℚ) / (2 * t) := by
    push_cast
    field_simp
    ring
  have hint : (t : ℤ) < |2 * (n : ℤ) * t - 20000 * l| := by
    rw [hscale, abs_div, abs_of_pos (by positivity : (0 : ℚ) < 2 * t), lt_div_iff₀ (by positivity)] at hgt
    have : ((t : ℤ) : ℚ) < ((|2 * (n : ℤ) * t - 20000 * l| : ℤ) : ℚ) := by
      push_cast
      push_cast at hgt
      linarith
    exact_mod_cast this
  have hint' : (t : ℤ) + 1 ≤ |2 * (n : ℤ) * t - 20000 * l| := hint
  have hq : ((t : ℚ) + 1) / (2 * t) ≤ |(n : ℚ) - 10000 * (l : ℚ) / t| := by
    rw [hscale, abs_div, abs_of_pos (by positivity : (0 : ℚ) < 2 * t)]
    apply div_le_div_of_nonneg_right _ (by positivity)
    have : (((t : ℤ) + 1 : ℤ) : ℚ) ≤ ((|2 * (n : ℤ) * t - 20000 * l| : ℤ) : ℚ) := by
      exact_mod_cast hint'
    push_cast at this
    push_cast
    exact this
  have hbig' : t < 137438953472 := by norm_num at hbig; exact hbig
  have hlt : (t : ℚ) < 137438953472 := by exact_mod_cast hbig'
  have : ((t : ℚ) + 1) / (2 * t) ≤ 1 / 2 + 100 / 2 ^ 45 := hq.trans hbound
  rw [div_le_iff₀ (by positivity)] at this
  norm_num at this
  linarith

theorem twoDigits_eq (m : ℕ) (h : m < 100) :
    twoDigits m = String.mk [Nat.digitChar (m / 10), Nat.digitChar (m % 10)] := by
  interval_cases m <;> decide

theorem hundredths_floor (y : ℚ) (hy : 0 ≤ y) :
    ((hundredths y : ℕ) : ℤ) = ⌊y * 100 + 1 / 2⌋ := by
  unfold hundredths
  rw [abs_of_nonneg hy]
  exact Int.toNat_of_nonneg (Int.floor_nonneg.2 (by positivity))

theorem toFixed2_digits (y : ℚ) (hy : 0 ≤ y) :
    toFixed2 y = toString (hundredths y / 100) ++ "." ++
      String.mk [Nat.digitChar (hundredths y / 10 % 10), Nat.digitChar (hundredths y % 10)] := by
  rw [toFixed2_of_nonneg y hy, twoDigits_eq _ (Nat.mod_lt _ (by norm_num))]
  have e1 : hundredths y % 100 / 10 = hundredths y / 10 % 10 := by omega
  have e2 : hundredths y % 100 % 10 = hundredths y % 10 := by omega
  rw [e1, e2]

/-- C5, as the code has it. For every progress event with total above 0 and
loaded between 0 and total, there is a natural number `n` such that the
progress callback sets the text of the loading indicator to `Loading: `, the
decimal digits of `n / 100`, a point, the two decimal digits of `n % 100` and
`%`. That `n` is the integer nearest to 100 times the Number
`(loaded / total) * 100` computed in double arithmetic, the larger one on a
tie; `n / 100` is within `1 / 200 + 1 / 2 ^ 45` of `100 * loaded / total`, and
when loaded and total are whole numbers with total below `2 ^ 37`, `n / 100` is
a multiple of 0.01 nearest to `100 * loaded / total`. The callback changes
nothing else, the display state included. -/
theorem onProgress_effect (loaded total : ℚ) (h0 : 0 ≤ loaded) (h1 : loaded ≤ total)
    (ht : 0 < total) (w : World) :
    (∃ n : ℕ,
        (onProgress loaded total w).loadingElement.innerHTML =
          "Loading: " ++ (toString (n / 100) ++ "." ++
            String.mk [Nat.digitChar (n / 10 % 10), Nat.digitChar (n % 10)]) ++ "%" ∧
        (n : ℤ) = ⌊fmul (fdiv loaded total) 100 * 100 + 1 / 2⌋ ∧
        |(n : ℚ) / 100 - 100 * loaded / total| ≤ 1 / 200 + 1 / 2 ^ 45 ∧
        ∀ l t : ℕ, loaded = l → total = t → t < 2 ^ 37 →
          |(n : ℚ) - 10000 * loaded / total| ≤ 1 / 2) ∧
      (onProgress loaded total w).loadingElement.display = w.loadingElement.display ∧
      onProgress loaded total w =
        { w with loadingElement :=
            { w.loadingElement with
              innerHTML := (onProgress loaded total w).loadingElement.innerHTML } } := by
  obtain ⟨hy0, hye⟩ := percent_error loaded total h0 h1 ht
  have hn := hundredths_error _ hy0
  refine ⟨⟨hundredths (fmul (fdiv loaded total) 100), ?_, hundredths_floor _ hy0, ?_, ?_⟩,
    rfl, rfl⟩
  · show "Loading: " ++ toFixed2 (fmul (fdiv loaded total) 100) ++ "%" = _
    rw [toFixed2_digits _ hy0]
  · generalize fmul (fdiv loaded total) 100 = y at hy0 hye hn ⊢
    generalize (hundredths y : ℚ) = n at hn ⊢
    have e : n / 100 - 100 * loaded / total = (n - 100 * y) / 100 + (y - 100 * loaded / total) := by
      ring
    have h3 : |(n - 100 * y) / 100| ≤ 1 / 200 := by
      rw [abs_div, abs_of_pos (by norm_num : (0 : ℚ) < 100), div_le_iff₀ (by norm_num)]
      linarith
    rw [e]
    exact (abs_add _ _).trans (add_le_add h3 hye)
  · intro l t hl ht' hbig
    subst hl ht'
    have htpos : 0 < t := by exact_mod_cast ht
    exact nearest_hundredth l t _ _ htpos hbig hn hye

/-! ## A progress event at a tie -/

theorem toDouble_29_800 :
    toDouble (29 / 800) = 5224175567749775 / 2 ^ 57 := by
  rw [toDouble_eq_of_near (29 / 800) (-5) (5224175567749775)
    (by rw [abs_of_pos (by norm_num)]; norm_num) (by rw [abs_of_pos (by norm_num)]; norm_num)
    (by norm_num) (by norm_num) (by norm_num)]
  norm_num

theorem toDouble_29_800_percent :
    toDouble (5224175567749775 / 2 ^ 57 * 100) = 8162774324609023 / 2 ^ 51 := by
  rw [toDouble_eq_of_near (5224175567749775 / 2 ^ 57 * 100) (1) (8162774324609023)
    (by rw [abs_of_pos (by norm_num)]; norm_num) (by rw [abs_of_pos (by norm_num)]; norm_num)
    (by norm_num) (by norm_num) (by norm_num)]
  norm_num

theorem percent_29_800 : fmul (fdiv 29 800) 100 = 8162774324609023 / 2 ^ 51 := by
  unfold fmul fdiv
  rw [toDouble_29_800, toDouble_29_800_percent]

theorem floor_29_800 : ⌊fmul (fdiv 29 800) 100 * 100 + 1 / 2⌋ = 362 := by
  rw [percent_29_800, Int.floor_eq_iff]
  constructor <;> norm_num

/-- C5 at 29 of 800 bytes in the initial state: the exact percentage is 3.625,
the Number computed is the double just below it, and the text reads 3.62. -/
theorem onProgress_effect_witness :
    (0 : ℚ) ≤ 29 ∧ (29 : ℚ) ≤ 800 ∧ (0 : ℚ) < 800 ∧
      (onProgress 29 800
        (worldAt satellitePointData.position satellitePointData.lookAt)).loadingElement.innerHTML =
        "Loading: 3.62%" ∧
      (onProgress 29 800
        (worldAt satellitePointData.position satellitePointData.lookAt)).loadingElement.display =
        "block" :=
  ⟨by norm_num, by norm_num, by norm_num,
    by
      obtain ⟨n, htext, hfloor, -, -⟩ :=
        (onProgress_effect 29 800 (by norm_num) (by norm_num) (by norm_num)
          (worldAt satellitePointData.position satellitePointData.lookAt)).1
      rw [floor_29_800] at hfloor
      have hn : n = 362 := by exact_mod_cast hfloor
      rw [htext, hn]
      decide,
    (onProgress_effect 29 800 (by norm_num) (by norm_num) (by norm_num)
      (worldAt satellitePointData.position satellitePointData.lookAt)).2.1⟩

/-! ## A progress event of a very large load -/

theorem toDouble_counter_quotient :
    toDouble (3132755846043323 / 4048795923803972) = 3484660211677921 / 2 ^ 52 := by
  rw [toDouble_eq_of_near (3132755846043323 / 4048795923803972) (-1) (6969320423355842)
    (by rw [abs_of_pos (by norm_num)]; norm_num) (by rw [abs_of_pos (by norm_num)]; norm_num)
    (by norm_num) (by norm_num) (by norm_num)]
  norm_num

theorem toDouble_counter_percent :
    toDouble (3484660211677921 / 2 ^ 52 * 100) = 619 / 2 ^ 3 := by
  rw [toDouble_eq_of_near (3484660211677921 / 2 ^ 52 * 100) (6) (5444781580746752)
    (by rw [abs_of_pos (by norm_num)]; norm_num) (by rw [abs_of_pos (by norm_num)]; norm_num)
    (by norm_num) (by norm_num) (by norm_num)]
  norm_num

theorem percent_counter :
    fmul (fdiv 3132755846043323 4048795923803972) 100 = 619 / 2 ^ 3 := by
  unfold fmul fdiv
  rw [toDouble_counter_quotient, toDouble_counter_percent]

theorem hundredths_counter :
    hundredths (fmul (fdiv 3132755846043323 4048795923803972) 100) = 7738 := by
  rw [percent_counter]
  unfold hundredths
  have h : ⌊|(619 / 2 ^ 3 : ℚ)| * 100 + 1 / 2⌋ = 7738 := by
    rw [Int.floor_eq_iff, abs_of_pos (by norm_num)]
    constructor <;> norm_num
  rw [h]
  rfl

/-- C5, as the claim has it, fails: at 3132755846043323 of 4048795923803972
bytes the quotient is rounded to a double, its product with 100 is rounded to
77.375 exactly, and the text reads 77.38, while the exact percentage is below
77.375 and so nearer to 77.37 than to 77.38. -/
theorem onProgress_not_rounded :
    (0 : ℚ) ≤ 3132755846043323 ∧ (3132755846043323 : ℚ) ≤ 4048795923803972 ∧
      (onProgress 3132755846043323 4048795923803972
        (worldAt satellitePointData.position satellitePointData.lookAt)).loadingElement.innerHTML =
        "Loading: 77.38%" ∧
      |(7737 / 100 : ℚ) - 100 * 3132755846043323 / 4048795923803972| < 1 / 200 ∧
      (1 / 200 : ℚ) < |7738 / 100 - 100 * 3132755846043323 / 4048795923803972| := by
  refine ⟨by norm_num, by norm_num, ?_, ?_, ?_⟩
  · have h := toFixed2_of_nonneg (fmul (fdiv 3132755846043323 4048795923803972) 100)
      (by rw [percent_counter]; norm_num)
    show "Loading: " ++ toFixed2 (fmul (fdiv 3132755846043323 4048795923803972) 100) ++ "%" = _
    rw [h, hundredths_counter]
    decide
  · rw [abs_lt]
    constructor <;> norm_num
  · rw [lt_abs]
    left
    norm_num

end Playground
